import Mathlib

/-!
Verification development for a Kubernetes-flavored YAML linter/fixer.

The TypeScript sources are shallowly embedded: lines of text are lists of
characters, JavaScript string/regex operations are transliterated into
executable Lean functions, floating-point confidences are modelled by
rationals, and the external `js-yaml` parse/serialize collaborators are
parameters of the embedded entry points (the source wraps them in
try/catch; here they are total functions returning a structured result).
-/

/-! ## Character and string primitives (JavaScript semantics) -/

abbrev Chars := List Char

/-- Whitespace class of JavaScript regular expressions and `trim`
restricted to characters that can occur inside one line. -/
def isJsWs (c : Char) : Bool :=
  c == ' ' || c == '\t' || c == '\n' || c == '\r' ||
  c == Char.ofNat 11 || c == Char.ofNat 12

/-- Length of the leading whitespace run, the length of the match of
the regex group in `line.match(/^(\s*)/)`. -/
def leadWs (l : Chars) : Nat := (l.takeWhile isJsWs).length

/-- Number of leading space characters (the spec's notion of indent). -/
def leadSpaces (l : Chars) : Nat := (l.takeWhile (fun c => c == ' ')).length

/-- JavaScript `trimStart` on one line. -/
def trimL (l : Chars) : Chars := l.dropWhile isJsWs

/-- JavaScript `trimEnd` on one line. -/
def trimR (l : Chars) : Chars := (l.reverse.dropWhile isJsWs).reverse

/-- JavaScript `trim` on one line. -/
def jsTrim (l : Chars) : Chars := trimR (trimL l)

/-- JavaScript `line.search(/\S/)`: index of the first non-whitespace
character, `-1` when there is none. -/
def searchNonWs (l : Chars) : Int :=
  if (l.dropWhile isJsWs).isEmpty then -1 else (leadWs l : Int)

/-- Does `l` start with the segment `p`? -/
def startsWithSeg (p l : Chars) : Bool := l.take p.length == p

/-- Does `l` end with the segment `p`? -/
def endsWithSeg (p l : Chars) : Bool := startsWithSeg p.reverse l.reverse

/-- JavaScript `l.includes(p)` (substring containment). -/
def containsSeg (p : Chars) : Chars → Bool
  | [] => p.isEmpty
  | c :: t => startsWithSeg p (c :: t) || containsSeg p t

/-- JavaScript `l.indexOf(p)`: index of the first occurrence, `-1` if none. -/
def indexOfSeg (p : Chars) : Chars → Int
  | [] => if p.isEmpty then 0 else -1
  | c :: t =>
      if startsWithSeg p (c :: t) then 0
      else
        let r := indexOfSeg p t
        if r == -1 then -1 else r + 1

/-- Split a text into its lines, JavaScript `content.split('\n')`. -/
def splitNl : Chars → List Chars
  | [] => [[]]
  | c :: rest =>
      match splitNl rest with
      | [] => [[c]]
      | h :: t => if c == '\n' then [] :: h :: t else (c :: h) :: t

/-- Join lines back, JavaScript `lines.join('\n')`. -/
def joinNl : List Chars → Chars
  | [] => []
  | [l] => l
  | l :: rest => l ++ '\n' :: joinNl rest

def isAsciiLower (c : Char) : Bool := 'a' ≤ c && c ≤ 'z'

def isAsciiUpper (c : Char) : Bool := 'A' ≤ c && c ≤ 'Z'

def isAsciiAlpha (c : Char) : Bool := isAsciiLower c || isAsciiUpper c

def isAsciiDigit (c : Char) : Bool := '0' ≤ c && c ≤ '9'

/-- ASCII lowercasing, `String.prototype.toLowerCase` on the identifiers
appearing in the knowledge tables. -/
def toLowerAscii (c : Char) : Char :=
  if isAsciiUpper c then Char.ofNat (c.toNat + 32) else c

def lowerSeg (l : Chars) : Chars := l.map toLowerAscii

/-- Character class `[a-zA-Z0-9_-]` used for YAML keys throughout the source. -/
def isKeyChar (c : Char) : Bool :=
  isAsciiAlpha c || isAsciiDigit c || c == '_' || c == '-'

/-- JavaScript `' '.repeat(n)`. -/
def spaces (n : Nat) : Chars := List.replicate n ' '

/-- Helper of `wsTokens`: `cur` is the reversed token being read. -/
def wsTokensGo (cur : Chars) : Chars → List Chars
  | [] => if cur.isEmpty then [] else [cur.reverse]
  | c :: t =>
      if isJsWs c then
        if cur.isEmpty then wsTokensGo [] t
        else cur.reverse :: wsTokensGo [] t
      else wsTokensGo (c :: cur) t

/-- Maximal non-whitespace runs of a line, in order. -/
def wsTokens (l : Chars) : List Chars := wsTokensGo [] l

/-- JavaScript `trimmed.split(/\s+/)`: split on whitespace runs; a leading
or trailing run contributes an empty token, and the empty string yields
one empty token. -/
def jsSplitWs (l : Chars) : List Chars :=
  if l.isEmpty then [[]]
  else
    let core := wsTokens l
    let core := if isJsWs l.headI then [] :: core else core
    if isJsWs l.getLastI then core ++ [[]] else core

/-! ## Fix-suggestion data model (`src/semantic/types.ts`) -/

inductive Severity where
  | critical | error | warning | info
  deriving DecidableEq, Repr

inductive FixType where
  | missingColon | missingSpace | indentation | duplicateKey | typeCoercion
  | fieldRelocation | listRestructure | orphanedValue | fieldNormalization
  | quoteBalance | bracketBalance
  deriving DecidableEq, Repr

structure FixSuggestion where
  lineNumber : Int
  type : FixType
  original : Chars
  fixed : Chars
  confidence : ℚ
  severity : Severity
  deriving DecidableEq, Repr

/-! ## Confidence scorer (`src/confidence/scorer.ts`) -/

/-- Severity weights of `calculateOverallConfidence`. -/
def severityWeight : Severity → ℚ
  | .critical => 3/2
  | .error => 1
  | .warning => 7/10
  | .info => 1/2

/-- Transliteration of `calculateOverallConfidence`: a running
severity-weighted sum of confidences divided by the total weight;
an empty fix list scores `1.0`. -/
def calculateOverallConfidence (fixes : List FixSuggestion) : ℚ :=
  if fixes.length = 0 then 1
  else
    let acc := fixes.foldl
      (fun (a : ℚ × ℚ) f =>
        (a.1 + f.confidence * severityWeight f.severity,
         a.2 + severityWeight f.severity))
      (0, 0)
    if acc.2 > 0 then acc.1 / acc.2 else 1

/-- Transliteration of `filterByConfidence`. -/
def filterByConfidence (fixes : List FixSuggestion) (threshold : ℚ) :
    List FixSuggestion :=
  fixes.filter (fun f => threshold ≤ f.confidence)

/-! ## Indentation-style detector (`IndentationValidator.detectIndentationStyle`) -/

/-- Transliteration of the counting loop of `detectIndentationStyle`:
first component counts indents that are multiples of 4, second component
multiples of 2. -/
def indentStyleCounts (ls : List Chars) : Nat × Nat :=
  ls.foldl
    (fun (counts : Nat × Nat) l =>
      let sp := leadWs l
      if sp > 0 then
        ((if sp % 4 = 0 then counts.1 + 1 else counts.1),
         (if sp % 2 = 0 then counts.2 + 1 else counts.2))
      else counts)
    (0, 0)

/-- Transliteration of `IndentationValidator.detectIndentationStyle`. -/
def detectIndentationStyle (content : Chars) : Nat :=
  let counts := indentStyleCounts (splitNl content)
  if counts.1 > counts.2 then 4 else 2

/-- Count, in the words of the specification, of indented lines whose
indent width is a multiple of `m`. -/
def claimIndentCount (m : Nat) (content : Chars) : Nat :=
  ((splitNl content).filter (fun l => 0 < leadWs l && leadWs l % m = 0)).length

/-! ## C6: aggregate confidence is a severity-weighted average -/

/-- Weights named by the specification: critical 1.5, error 1.0,
warning 0.7, info 0.5. -/
def claimWeight : Severity → ℚ
  | .critical => 15/10
  | .error => 10/10
  | .warning => 7/10
  | .info => 5/10

/-- Overall confidence in the words of the specification: the
severity-weighted average of the fixes' confidences, `1.0` for the
empty set. -/
def claimOverallConfidence (fixes : List FixSuggestion) : ℚ :=
  if fixes = [] then 1
  else (fixes.map (fun f => claimWeight f.severity * f.confidence)).sum /
       (fixes.map (fun f => claimWeight f.severity)).sum

/-! ## Knowledge base (`src/knowledge/field-patterns.ts`, `type-registry.ts`) -/

/-- Transliteration of `KNOWN_FIELDS` (a JS `Set` built from an array;
insertion order kept, duplicates irrelevant to membership and to
closest-match search since they tie). -/
def knownFieldsStr : List String :=
  ["apiVersion", "kind", "metadata", "spec", "status", "data",
   "name", "namespace", "labels", "annotations", "uid", "resourceVersion",
   "generation", "creationTimestamp", "deletionTimestamp", "ownerReferences",
   "finalizers",
   "replicas", "selector", "template", "strategy", "minReadySeconds",
   "revisionHistoryLimit", "progressDeadlineSeconds", "paused",
   "containers", "initContainers", "volumes", "restartPolicy",
   "terminationGracePeriodSeconds", "dnsPolicy", "serviceAccountName",
   "serviceAccount", "nodeName", "nodeSelector", "affinity", "tolerations",
   "hostNetwork", "hostPID", "hostIPC", "securityContext", "imagePullSecrets",
   "hostname", "subdomain", "schedulerName", "priorityClassName", "priority",
   "image", "imagePullPolicy", "command", "args", "workingDir", "ports",
   "env", "envFrom", "resources", "volumeMounts", "livenessProbe",
   "readinessProbe", "startupProbe", "lifecycle", "stdin", "stdinOnce", "tty",
   "containerPort", "hostPort", "protocol", "hostIP",
   "value", "valueFrom",
   "limits", "requests", "cpu", "memory", "storage",
   "mountPath", "subPath", "readOnly",
   "httpGet", "tcpSocket", "exec", "initialDelaySeconds", "timeoutSeconds",
   "periodSeconds", "successThreshold", "failureThreshold",
   "type", "clusterIP", "externalIPs", "sessionAffinity", "loadBalancerIP",
   "loadBalancerSourceRanges", "externalName", "externalTrafficPolicy",
   "healthCheckNodePort", "publishNotReadyAddresses",
   "port", "targetPort", "nodePort",
   "binaryData", "stringData", "immutable",
   "emptyDir", "hostPath", "configMap", "secret", "persistentVolumeClaim",
   "nfs", "awsElasticBlockStore", "gcePersistentDisk", "azureDisk",
   "azureFile", "csi", "projected", "downwardAPI",
   "accessModes", "storageClassName", "volumeMode", "volumeName",
   "rules", "tls", "backend", "host", "http", "paths", "path", "pathType",
   "serviceName", "servicePort",
   "subjects", "roleRef", "rules", "verbs", "apiGroups", "resources",
   "resourceNames",
   "schedule", "concurrencyPolicy", "suspend", "successfulJobsHistoryLimit",
   "failedJobsHistoryLimit", "completions", "parallelism", "backoffLimit",
   "activeDeadlineSeconds", "ttlSecondsAfterFinished"]

def knownFields : List Chars := knownFieldsStr.map String.data

/-- Transliteration of `isKnownField`. -/
def isKnownField (f : Chars) : Bool := knownFields.contains f

/-- Transliteration of `FIELD_ALIASES` (iteration order of
`Object.entries` is insertion order). -/
def fieldAliasesStr : List (String × List String) :=
  [("metadata", ["metdata", "meta", "met"]),
   ("apiVersion", ["api", "version", "apiv"]),
   ("kind", ["type", "resource"]),
   ("spec", ["specification", "spc"]),
   ("replicas", ["replica", "reps"]),
   ("containers", ["container", "ctr"]),
   ("image", ["img", "imageName"]),
   ("name", ["nm", "id"]),
   ("namespace", ["ns", "namespaces"]),
   ("labels", ["label", "tags"]),
   ("annotations", ["annotation", "notes"]),
   ("selector", ["select", "sel"]),
   ("template", ["tmpl", "temp"]),
   ("volumeMounts", ["volumeMount", "mounts"]),
   ("volumes", ["volume", "vol"]),
   ("env", ["environment", "envs"]),
   ("ports", ["port"]),
   ("resources", ["resource", "res"]),
   ("limits", ["limit"]),
   ("requests", ["request", "req"])]

def fieldAliases : List (Chars × List Chars) :=
  fieldAliasesStr.map (fun p => (p.1.data, p.2.map String.data))

/-- Transliteration of `getCanonicalFieldName`: first canonical whose
alias list contains the lowercased field name. -/
def getCanonicalFieldName (f : Chars) : Option Chars :=
  (fieldAliases.find? (fun p => p.2.contains (lowerSeg f))).map (fun p => p.1)

/-- Transliteration of `matchesKubernetesPattern` (the third pattern
`^[a-z]+$` is subsumed by the first two). -/
def matchesKubernetesPattern (f : Chars) : Bool :=
  match f with
  | [] => false
  | c :: rest =>
      isAsciiLower c &&
        (rest.all (fun d => isAsciiAlpha d || isAsciiDigit d) ||
         rest.all (fun d => isAsciiLower d || isAsciiDigit d || d == '-'))

inductive FieldType where
  | string | number | boolean | object | array | any
  deriving DecidableEq, Repr

structure TypeExpectation where
  field : Chars
  expectedType : FieldType
  ctx : Option Chars
  deriving Repr

def mkTE (s : String) (t : FieldType) : TypeExpectation :=
  { field := s.data, expectedType := t, ctx := none }

/-- Transliteration of `TYPE_EXPECTATIONS` (examples omitted: they are
presentation-only; the one`context`-carrying entry is kept). -/
def typeExpectations : List TypeExpectation :=
  (["hostNetwork", "hostPID", "hostIPC", "readOnly", "privileged",
    "allowPrivilegeEscalation", "runAsNonRoot", "stdin", "stdinOnce", "tty",
    "immutable", "suspend", "paused"].map (fun s => mkTE s .boolean)) ++
  (["replicas", "port", "containerPort", "targetPort", "hostPort", "nodePort",
    "initialDelaySeconds", "timeoutSeconds", "periodSeconds",
    "successThreshold", "failureThreshold", "terminationGracePeriodSeconds",
    "minReadySeconds", "revisionHistoryLimit", "progressDeadlineSeconds",
    "completions", "parallelism", "backoffLimit", "activeDeadlineSeconds",
    "ttlSecondsAfterFinished", "successfulJobsHistoryLimit",
    "failedJobsHistoryLimit", "runAsUser", "runAsGroup", "fsGroup",
    "priority"].map (fun s => mkTE s .number)) ++
  (["name", "namespace", "image", "imagePullPolicy", "restartPolicy",
    "dnsPolicy", "type", "protocol", "mountPath", "subPath", "path",
    "pathType", "storageClassName", "volumeMode", "concurrencyPolicy",
    "schedule", "apiVersion", "kind"].map (fun s => mkTE s .string)) ++
  (["metadata", "spec", "template", "selector", "labels", "annotations",
    "resources", "limits", "requests", "securityContext", "affinity",
    "nodeSelector", "httpGet", "tcpSocket", "exec", "valueFrom",
    "configMapKeyRef", "secretKeyRef", "fieldRef",
    "resourceFieldRef"].map (fun s => mkTE s .object)) ++
  (["containers", "initContainers", "volumes", "volumeMounts", "env",
    "envFrom", "ports", "command", "args", "tolerations", "imagePullSecrets",
    "finalizers", "ownerReferences", "accessModes", "rules", "paths", "tls",
    "subjects", "verbs", "apiGroups"].map (fun s => mkTE s .array)) ++
  [{ field := "resources".data, expectedType := .array, ctx := some "rbac".data },
   mkTE "resourceNames" .array]

/-- Transliteration of `getExpectedType` at its call sites, which never
pass a context: the predicate `!exp.context || exp.context === context`
reduces to the entry having no context. -/
def getExpectedType (fieldName : Chars) : Option FieldType :=
  (typeExpectations.find? (fun e => e.field == fieldName && e.ctx.isNone)).map
    (fun e => e.expectedType)

/-! ## Fuzzy matcher (`src/fixers/utils/fuzzy-matcher.ts`) -/

/-- One inner step of the Levenshtein matrix: given the value to the left,
the diagonal value, the rest of the previous row and the rest of the
second string, produce the rest of the current row. -/
def levRowGo (c1 : Char) : Nat → Nat → List Nat → Chars → List Nat
  | left, diag, pj :: prest, c2 :: s2rest =>
      let cost := if c1 == c2 then 0 else 1
      let v := Nat.min (Nat.min (pj + 1) (left + 1)) (diag + cost)
      v :: levRowGo c1 v pj prest s2rest
  | _, _, _, _ => []

def levRow (c1 : Char) (prevRow : List Nat) (s2 : Chars) (i : Nat) : List Nat :=
  match prevRow with
  | p0 :: prest => i :: levRowGo c1 i p0 prest s2
  | [] => [i]

/-- Transliteration of `levenshteinDistance` (the dynamic-programming
matrix is built row by row). -/
def levenshteinDistance (s1 s2 : Chars) : Nat :=
  let row0 := List.range (s2.length + 1)
  let final := s1.foldl (fun (st : List Nat × Nat) c =>
      (levRow c st.1 s2 (st.2 + 1), st.2 + 1)) (row0, 0)
  final.1.getLastD 0

/-- Transliteration of `findClosestMatch`: first candidate at the strictly
smallest distance within the cutoff (both sides lowercased). -/
def findClosestMatch (target : Chars) (candidates : List Chars)
    (maxDistance : Nat) : Option (Chars × Nat) :=
  candidates.foldl (fun (acc : Option (Chars × Nat)) c =>
      let d := levenshteinDistance (lowerSeg target) (lowerSeg c)
      match acc with
      | none => if d ≤ maxDistance then some (c, d) else acc
      | some (_, m) => if d ≤ maxDistance && d < m then some (c, d) else acc)
    none

/-- Transliteration of `calculateFuzzyConfidence`. The fallback ratio
branch is unreachable from `findClosestMatch` (distance cutoff 2); there
JavaScript float division is modelled by rational division. -/
def calculateFuzzyConfidence (distance : Nat) (targetLength : Nat) : ℚ :=
  if distance = 0 then 1
  else if distance = 1 then 9/10
  else if distance = 2 then 7/10
  else max 0 (1 - (distance : ℚ) / (targetLength : ℚ))

/-! ## Semantic line model (`src/semantic/types.ts`, `context-analyzer.ts`) -/

inductive LineType where
  | keyValue | keyOnly | valueOnly | listItem | comment | blank | separator
  | blockScalar | unknownLine
  deriving DecidableEq, Repr

/-- A classified line. `parent` and `children` are indices into the parsed
line list (the source stores object references; references are modelled by
positions, which are unique). -/
structure SemLine where
  lineNumber : Nat
  content : Chars
  indent : Nat
  type : LineType
  key : Option Chars
  value : Option Chars
  isListItem : Bool
  hasColon : Bool
  parent : Option Nat
  children : List Nat
  deriving DecidableEq, Repr

def defaultSemLine : SemLine :=
  { lineNumber := 0, content := [], indent := 0, type := .unknownLine,
    key := none, value := none, isListItem := false, hasColon := false,
    parent := none, children := [] }

instance : Inhabited SemLine := ⟨defaultSemLine⟩

/-- JavaScript truthiness of an optional string. -/
def optTruthy : Option Chars → Bool
  | some v => !v.isEmpty
  | none => false

inductive LevelKind where
  | object | array
  deriving DecidableEq, Repr

structure IndentLevel where
  indent : Nat
  key : Chars
  kind : LevelKind
  lineNumber : Nat
  deriving DecidableEq, Repr

/-! ## Indentation tracker (`src/semantic/indentation-tracker.ts`)

The JS array keeps the stack bottom-first and pushes/pops at the end;
here the list keeps the top of the stack at its head, so JS `push` is
`cons` and the bottom-to-top order is the reverse of the list. -/

structure TrackerSt where
  indentStack : List IndentLevel
  currentIndent : Nat
  deriving Repr

def emptyTracker : TrackerSt := { indentStack := [], currentIndent := 0 }

/-- The pop loop of `IndentationTracker.processLine`: frames whose indent
is ≥ the incoming indent are discarded. -/
def popStack (indent : Nat) : List IndentLevel → List IndentLevel
  | [] => []
  | f :: rest => if indent ≤ f.indent then popStack indent rest else f :: rest

/-- Transliteration of `IndentationTracker.processLine`. -/
def trackerProcessLine (st : TrackerSt) (content : Chars) (indent : Nat) :
    TrackerSt :=
  if jsTrim content == "---".data then emptyTracker
  else { indentStack := popStack indent st.indentStack, currentIndent := indent }

/-- Transliteration of `IndentationTracker.push`. -/
def trackerPush (st : TrackerSt) (indent : Nat) (key : Chars)
    (kind : LevelKind) (lineNumber : Nat) : TrackerSt :=
  { st with indentStack :=
      { indent := indent, key := key, kind := kind, lineNumber := lineNumber }
        :: st.indentStack }

/-- Transliteration of `IndentationTracker.getCurrentPath` (bottom-to-top,
hence the reverse). -/
def trackerCurrentPath (st : TrackerSt) : List Chars :=
  (st.indentStack.map (fun f => f.key)).reverse

/-! ## Context analyzer (`src/semantic/context-analyzer.ts`) -/

structure AnalyzerSt where
  tracker : TrackerSt
  resourceType : Option Chars
  apiVersionSeen : Option Chars
  currentPath : List Chars
  inBlockScalar : Bool
  blockScalarIndent : Option Nat
  documentIndex : Nat
  deriving Repr

def emptyAnalyzer : AnalyzerSt :=
  { tracker := emptyTracker, resourceType := none, apiVersionSeen := none,
    currentPath := [], inBlockScalar := false, blockScalarIndent := none,
    documentIndex := 0 }

/-- Index of the first occurrence of a character (length if absent);
`trimmed.indexOf(c)` at call sites where containment was checked first. -/
def charIdx (c : Char) (l : Chars) : Nat :=
  (l.takeWhile (fun d => d != c)).length

/-- Transliteration of `ContextAnalyzer.classifyLine` (the list-item branch
returns `list-item` on both sides of its inner test and is collapsed). -/
def classifyLine (trimmed : Chars) : LineType :=
  if trimmed == [] then .blank
  else if startsWithSeg "#".data trimmed then .comment
  else if trimmed == "---".data || trimmed == "...".data then .separator
  else if trimmed == "|".data || trimmed == ">".data ||
          trimmed == "|-".data || trimmed == ">-".data then .blockScalar
  else if startsWithSeg "- ".data trimmed then .listItem
  else if trimmed.contains ':' then
    let colonIndex := charIdx ':' trimmed
    let afterColon := jsTrim (trimmed.drop (colonIndex + 1))
    if afterColon == [] || startsWithSeg "#".data afterColon then .keyOnly
    else .keyValue
  else if (match trimmed with
           | c :: rest => isAsciiAlpha c && rest.all isKeyChar
           | [] => false) then .keyOnly
  else .valueOnly

/-- Transliteration of `ContextAnalyzer.extractKeyValue`. -/
def extractKeyValue (line : SemLine) (trimmed : Chars) : SemLine :=
  let trimmed := if startsWithSeg "- ".data trimmed
                 then jsTrim (trimmed.drop 2) else trimmed
  if trimmed.contains ':' then
    let colonIndex := charIdx ':' trimmed
    { line with key := some (jsTrim (trimmed.take colonIndex)),
                value := some (jsTrim (trimmed.drop (colonIndex + 1))) }
  else { line with key := some trimmed }

/-- Transliteration of `ContextAnalyzer.updateContext`. -/
def updateContext (st : AnalyzerSt) (line : SemLine) : AnalyzerSt :=
  let st := if line.key == some "kind".data && optTruthy line.value
            then { st with resourceType := line.value } else st
  let st := if line.key == some "apiVersion".data && optTruthy line.value
            then { st with apiVersionSeen := line.value } else st
  let st := { st with currentPath := trackerCurrentPath st.tracker }
  let st :=
    if line.type == .blockScalar then
      { st with inBlockScalar := true, blockScalarIndent := some line.indent }
    else if st.inBlockScalar &&
            decide (line.indent ≤ st.blockScalarIndent.getD 0) then
      { st with inBlockScalar := false, blockScalarIndent := none }
    else st
  if optTruthy line.key && line.type != .valueOnly then
    let kind := if line.isListItem then LevelKind.array else LevelKind.object
    let tr := trackerPush st.tracker line.indent (line.key.getD []) kind line.lineNumber
    { st with tracker := tr }
  else st

/-- Transliteration of `ContextAnalyzer.analyzeLine`. -/
def analyzeLine (st : AnalyzerSt) (lineNumber : Nat) (content : Chars) :
    AnalyzerSt × SemLine :=
  let trimmed := jsTrim content
  let indent := leadWs content
  let st := { st with tracker := trackerProcessLine st.tracker content indent }
  let ltype := classifyLine trimmed
  let line : SemLine :=
    { lineNumber := lineNumber, content := content, indent := indent,
      type := ltype, key := none, value := none,
      isListItem := startsWithSeg "-".data trimmed,
      hasColon := trimmed.contains ':',
      parent := none, children := [] }
  let line := if ltype == .keyValue || ltype == .keyOnly
              then extractKeyValue line trimmed else line
  (updateContext st line, line)

/-! ## Semantic parser (`src/unnamed/part_001`, `SemanticParser`) -/

/-- Result of `SemanticParser.parse`: the classified lines and the final
context-analyzer state (the fixers query the analyzer after parsing). -/
structure SemParsed where
  lines : List SemLine
  analyzer : AnalyzerSt
  deriving Repr

/-- The pop loop of `buildRelationships`, on indices. -/
def popRelStack (lines : List SemLine) (indent : Nat) : List Nat → List Nat
  | [] => []
  | p :: rest =>
      if indent ≤ ((lines.get? p).getD defaultSemLine).indent
      then popRelStack lines indent rest
      else p :: rest

/-- Transliteration of `SemanticParser.buildRelationships`; the stack of
open lines holds indices, top at the head. -/
def buildRelationships (lines : List SemLine) : List SemLine :=
  let step := fun (st : List SemLine × List Nat) (i : Nat) =>
    let arr := st.1
    let line := (arr.get? i).getD defaultSemLine
    if line.type == .blank || line.type == .comment then st
    else
      let stack := popRelStack arr line.indent st.2
      let arr :=
        match stack.head? with
        | some p =>
            let arr := arr.set i { line with parent := some p }
            let par := (arr.get? p).getD defaultSemLine
            arr.set p { par with children := par.children ++ [i] }
        | none => arr
      let stack :=
        if line.type == .keyOnly || line.type == .keyValue ||
           line.type == .listItem
        then i :: stack else stack
      (arr, stack)
  ((List.range lines.length).foldl step (lines, [])).1

/-- Loop body of `SemanticParser.parse`, including the verbatim
block-scalar branch that still feeds the line to the analyzer. -/
def semParseStep (st : AnalyzerSt × List SemLine) (p : Nat × Chars) :
    AnalyzerSt × List SemLine :=
  let lineNumber := p.1 + 1
  let c := p.2
  if st.1.inBlockScalar then
    let line : SemLine :=
      { lineNumber := lineNumber, content := c, indent := leadWs c,
        type := .blockScalar, key := none, value := none,
        isListItem := false, hasColon := false, parent := none,
        children := [] }
    ((analyzeLine st.1 lineNumber c).1, st.2 ++ [line])
  else
    let r := analyzeLine st.1 lineNumber c
    (r.1, st.2 ++ [r.2])

/-- Transliteration of `SemanticParser.parse`. -/
def semParse (content : Chars) : SemParsed :=
  let raw := splitNl content
  let folded := raw.enum.foldl semParseStep (emptyAnalyzer, ([] : List SemLine))
  { lines := buildRelationships folded.2, analyzer := folded.1 }

/-- Transliteration of `SemanticParser.getNextNonBlankLine` (the scan
starts at index `lineNumber`, i.e. at the line after `lineNumber`). -/
def getNextNonBlankLine (lines : List SemLine) (lineNumber : Nat) :
    Option SemLine :=
  (lines.drop lineNumber).find?
    (fun l => l.type != .blank && l.type != .comment)

/-- Transliteration of `SemanticParser.findSiblings` (object identity of
parents becomes equality of parent indices; lines are identified by their
unique line numbers). -/
def findSiblings (lines : List SemLine) (line : SemLine) : List SemLine :=
  lines.filter (fun l =>
    l.parent == line.parent && l.indent == line.indent &&
    l.lineNumber != line.lineNumber && l.type != .blank &&
    l.type != .comment)

/-! ## Fixer options (`FixerOptions` and the `IntelligentYAMLFixer`
constructor defaults) -/

structure FixerOptions where
  confidenceThreshold : ℚ
  aggressive : Bool
  maxIterations : Nat
  enableLearning : Bool
  enableRelocation : Bool
  indentSize : Nat
  deriving Repr

/-- Transliteration of the `IntelligentYAMLFixer` constructor: `??`
defaults (threshold 0.8, aggressive false, maxIterations 3, learning and
relocation on, indent 2) followed by the aggressive-mode lowering of the
threshold to at most 0.6. -/
def mkFixerOptions (threshold : Option ℚ) (aggressive : Option Bool)
    (maxIterations : Option Nat) : FixerOptions :=
  let opts : FixerOptions :=
    { confidenceThreshold := threshold.getD (8/10),
      aggressive := aggressive.getD false,
      maxIterations := maxIterations.getD 3,
      enableLearning := true, enableRelocation := true, indentSize := 2 }
  if opts.aggressive then
    { opts with confidenceThreshold := min opts.confidenceThreshold (6/10) }
  else opts

/-- JavaScript `parts.join(' ')`. -/
def joinWithSpace : List Chars → Chars
  | [] => []
  | [l] => l
  | l :: rest => l ++ ' ' :: joinWithSpace rest

/-! ## Context-aware key fixer (`src/fixers/context-aware-key-fixer.ts`) -/

/-- Transliteration of `detectMissingColonInListItem`. -/
def detectMissingColonInListItem (p : SemParsed) (line : SemLine)
    (trimmed : Chars) : Option FixSuggestion :=
  let afterDash := jsTrim (trimmed.drop 2)
  let parts := jsSplitWs afterDash
  if 2 ≤ parts.length then
    let key := parts.headI
    let value := joinWithSpace (parts.drop 1)
    if isKnownField key then
      some { lineNumber := (line.lineNumber : Int), type := .missingColon,
             original := line.content,
             fixed := spaces line.indent ++ "- ".data ++ key ++ ": ".data ++ value,
             confidence := 95/100, severity := .error }
    else if matchesKubernetesPattern key then
      some { lineNumber := (line.lineNumber : Int), type := .missingColon,
             original := line.content,
             fixed := spaces line.indent ++ "- ".data ++ key ++ ": ".data ++ value,
             confidence := 7/10, severity := .warning }
    else none
  else if parts.length = 1 then
    let key := parts.headI
    match getNextNonBlankLine p.lines line.lineNumber with
    | some nextLine =>
        if line.indent < nextLine.indent then
          let confidence : ℚ :=
            if isKnownField key then 95/100
            else if matchesKubernetesPattern key then 75/100 else 6/10
          some { lineNumber := (line.lineNumber : Int), type := .missingColon,
                 original := line.content,
                 fixed := spaces line.indent ++ "- ".data ++ key ++ ":".data,
                 confidence := confidence,
                 severity := if 8/10 ≤ confidence then .error else .warning }
        else none
    | none => none
  else none

/-- Transliteration of `detectMissingColonInKey`. -/
def detectMissingColonInKey (p : SemParsed) (line : SemLine)
    (trimmed : Chars) : Option FixSuggestion :=
  let parts := jsSplitWs trimmed
  if 2 ≤ parts.length then
    let key := parts.headI
    let value := joinWithSpace (parts.drop 1)
    if isKnownField key then
      some { lineNumber := (line.lineNumber : Int), type := .missingColon,
             original := line.content,
             fixed := spaces line.indent ++ key ++ ": ".data ++ value,
             confidence := 95/100, severity := .error }
    else if matchesKubernetesPattern key then
      match getExpectedType key with
      | some t =>
          if t != .object && t != .array then
            some { lineNumber := (line.lineNumber : Int), type := .missingColon,
                   original := line.content,
                   fixed := spaces line.indent ++ key ++ ": ".data ++ value,
                   confidence := 85/100, severity := .error }
          else
            some { lineNumber := (line.lineNumber : Int), type := .missingColon,
                   original := line.content,
                   fixed := spaces line.indent ++ key ++ ": ".data ++ value,
                   confidence := 7/10, severity := .warning }
      | none =>
          some { lineNumber := (line.lineNumber : Int), type := .missingColon,
                 original := line.content,
                 fixed := spaces line.indent ++ key ++ ": ".data ++ value,
                 confidence := 7/10, severity := .warning }
    else none
  else if parts.length = 1 then
    let key := parts.headI
    match getNextNonBlankLine p.lines line.lineNumber with
    | some nextLine =>
        if line.indent < nextLine.indent then
          let confidence : ℚ :=
            if isKnownField key then 95/100
            else if matchesKubernetesPattern key then 75/100 else 6/10
          let siblings := findSiblings p.lines line
          let siblingsWithColons := (siblings.filter (fun s => s.hasColon)).length
          let confidence :=
            if 0 < siblings.length &&
               decide ((8:ℚ)/10 < (siblingsWithColons : ℚ) / (siblings.length : ℚ))
            then max confidence (85/100) else confidence
          some { lineNumber := (line.lineNumber : Int), type := .missingColon,
                 original := line.content,
                 fixed := spaces line.indent ++ key ++ ":".data,
                 confidence := confidence,
                 severity := if 8/10 ≤ confidence then .error else .warning }
        else none
    | none => none
  else none

/-- Transliteration of `detectMissingColon`. -/
def detectMissingColon (p : SemParsed) (line : SemLine) :
    Option FixSuggestion :=
  let trimmed := jsTrim line.content
  if startsWithSeg "- ".data trimmed then
    detectMissingColonInListItem p line trimmed
  else detectMissingColonInKey p line trimmed

/-- Transliteration of `ContextAwareKeyFixer.findMissingColons` (each
fixer also filters by the confidence threshold itself). -/
def findMissingColons (p : SemParsed) (opts : FixerOptions) :
    List FixSuggestion :=
  p.lines.filterMap (fun line =>
    if line.hasColon || line.type == .blank || line.type == .comment ||
       line.type == .blockScalar then none
    else
      match detectMissingColon p line with
      | some fix =>
          if opts.confidenceThreshold ≤ fix.confidence then some fix else none
      | none => none)

/-! ## Field normalizer (`src/unnamed/part_002`, `FieldNormalizer`) -/

/-- Transliteration of `isContextAppropriate` (the current path is read
from the context analyzer after the whole document was parsed). -/
def isContextAppropriate (p : SemParsed) (suggestedField : Chars) : Bool :=
  let path := p.analyzer.currentPath
  if path.isEmpty then
    (["apiVersion", "kind", "metadata", "spec", "data", "status"].map
      String.data).contains suggestedField
  else if path.contains "metadata".data then
    (["name", "namespace", "labels", "annotations", "uid",
      "resourceVersion"].map String.data).contains suggestedField
  else true

/-- Transliteration of `createTypoFix` (the human-readable reason string
is presentation-only and omitted from the embedding). -/
def createTypoFix (line : SemLine) (correctField : Chars)
    (confidence : ℚ) : FixSuggestion :=
  let prefixPart := if line.isListItem then "- ".data else []
  let suffix :=
    if line.hasColon then
      ":".data ++ (if optTruthy line.value then ' ' :: line.value.getD [] else [])
    else []
  { lineNumber := (line.lineNumber : Int), type := .fieldNormalization,
    original := line.content,
    fixed := spaces line.indent ++ prefixPart ++ correctField ++ suffix,
    confidence := confidence,
    severity := if 85/100 ≤ confidence then .error else .warning }

/-- Transliteration of `FieldNormalizer.detectTypo`. -/
def detectTypo (p : SemParsed) (line : SemLine) : Option FixSuggestion :=
  let fieldName := line.key.getD []
  if isKnownField fieldName then none
  else
    match getCanonicalFieldName fieldName with
    | some canonical => some (createTypoFix line canonical (9/10))
    | none =>
        match findClosestMatch fieldName knownFields 2 with
        | some m =>
            let confidence := calculateFuzzyConfidence m.2 fieldName.length
            if isContextAppropriate p m.1 then
              some (createTypoFix line m.1 (min (confidence + 1/10) 1))
            else some (createTypoFix line m.1 confidence)
        | none => none

/-- Transliteration of `FieldNormalizer.findTypos`. -/
def findTypos (p : SemParsed) (opts : FixerOptions) : List FixSuggestion :=
  p.lines.filterMap (fun line =>
    if !optTruthy line.key || line.type == .blank || line.type == .comment ||
       line.type == .blockScalar then none
    else
      match detectTypo p line with
      | some fix =>
          if opts.confidenceThreshold ≤ fix.confidence then some fix else none
      | none => none)

/-! ## List structure fixer (`src/fixers/list-structure-fixer.ts`) -/

/-- Match of `/^-\s+[A-Z_][A-Z0-9_]*$/`. -/
def matchDashUpperToken (t : Chars) : Bool :=
  match t with
  | '-' :: rest =>
      let ws := rest.takeWhile isJsWs
      let tok := rest.dropWhile isJsWs
      !ws.isEmpty &&
        (match tok with
         | c :: cs =>
             (isAsciiUpper c || c == '_') &&
               cs.all (fun d => isAsciiUpper d || isAsciiDigit d || d == '_')
         | [] => false)
  | _ => false

/-- Match of `/^-\s+[a-z][a-z0-9-]*$/`. -/
def matchDashLowerToken (t : Chars) : Bool :=
  match t with
  | '-' :: rest =>
      let ws := rest.takeWhile isJsWs
      let tok := rest.dropWhile isJsWs
      !ws.isEmpty &&
        (match tok with
         | c :: cs =>
             isAsciiLower c &&
               cs.all (fun d => isAsciiLower d || isAsciiDigit d || d == '-')
         | [] => false)
  | _ => false

/-- Transliteration of `ListStructureFixer.fixBrokenEnvVar` (no indent
comparison on the following line, unlike the container and volume cases). -/
def fixBrokenEnvVar (p : SemParsed) (line : SemLine) : Option FixSuggestion :=
  let trimmed := jsTrim line.content
  if !matchDashUpperToken trimmed then none
  else
    match getNextNonBlankLine p.lines line.lineNumber with
    | none => none
    | some nextLine =>
        if nextLine.key == some "value".data ||
           nextLine.key == some "valueFrom".data then
          let envName := jsTrim (trimmed.drop 2)
          some { lineNumber := (line.lineNumber : Int), type := .listRestructure,
                 original := line.content,
                 fixed := spaces line.indent ++ "- name: ".data ++ envName,
                 confidence := 85/100, severity := .error }
        else none

/-- Transliteration of `ListStructureFixer.fixBrokenContainer`. -/
def fixBrokenContainer (p : SemParsed) (line : SemLine) :
    Option FixSuggestion :=
  let trimmed := jsTrim line.content
  if !matchDashLowerToken trimmed then none
  else
    match getNextNonBlankLine p.lines line.lineNumber with
    | none => none
    | some nextLine =>
        if nextLine.key == some "image".data &&
           decide (line.indent < nextLine.indent) then
          let containerName := jsTrim (trimmed.drop 2)
          some { lineNumber := (line.lineNumber : Int), type := .listRestructure,
                 original := line.content,
                 fixed := spaces line.indent ++ "- name: ".data ++ containerName,
                 confidence := 8/10, severity := .error }
        else none

/-- Transliteration of `ListStructureFixer.fixBrokenVolumeMount`. -/
def fixBrokenVolumeMount (p : SemParsed) (line : SemLine) :
    Option FixSuggestion :=
  let trimmed := jsTrim line.content
  if !matchDashLowerToken trimmed then none
  else
    match getNextNonBlankLine p.lines line.lineNumber with
    | none => none
    | some nextLine =>
        if nextLine.key == some "mountPath".data &&
           decide (line.indent < nextLine.indent) then
          let volumeName := jsTrim (trimmed.drop 2)
          some { lineNumber := (line.lineNumber : Int), type := .listRestructure,
                 original := line.content,
                 fixed := spaces line.indent ++ "- name: ".data ++ volumeName,
                 confidence := 8/10, severity := .error }
        else none

/-- Transliteration of `ListStructureFixer.findBrokenLists`. -/
def findBrokenLists (p : SemParsed) (opts : FixerOptions) :
    List FixSuggestion :=
  p.lines.foldl (fun acc line =>
    if !line.isListItem then acc
    else
      let acc := match fixBrokenEnvVar p line with
        | some f => if opts.confidenceThreshold ≤ f.confidence
                    then acc ++ [f] else acc
        | none => acc
      let acc := match fixBrokenContainer p line with
        | some f => if opts.confidenceThreshold ≤ f.confidence
                    then acc ++ [f] else acc
        | none => acc
      match fixBrokenVolumeMount p line with
        | some f => if opts.confidenceThreshold ≤ f.confidence
                    then acc ++ [f] else acc
        | none => acc)
    []

/-! ## Type coercer -/

def numberWords : List (Chars × Chars) :=
  [("zero".data, "0".data), ("one".data, "1".data), ("two".data, "2".data),
   ("three".data, "3".data), ("four".data, "4".data), ("five".data, "5".data),
   ("six".data, "6".data), ("seven".data, "7".data), ("eight".data, "8".data),
   ("nine".data, "9".data), ("ten".data, "10".data)]

/-- Is the value a quoted run of digits, e.g. `"3"` or `'8080'`? -/
def quotedNumeric (v : Chars) : Option Chars :=
  match v with
  | q :: rest =>
      if (q == '"' || q == '\'') && rest.getLastD ' ' == q then
        let inner := rest.dropLast
        if !inner.isEmpty && inner.all isAsciiDigit then some inner else none
      else none
  | [] => none

/-- Modelled from the spec: the source file `src/fixers/type-coercer.ts`
(class `TypeCoercer`, method `findTypeMismatches`) is imported and run by
`IntelligentYAMLFixer.fix` but is not part of the repository snapshot.
Per the specification, the pass inspects key-value lines whose key has a
known expected scalar type, unquotes quoted numeric strings, converts the
number words zero..ten to digits, and normalizes yes/no/1/0 to boolean
literals; the scorer's rule table assigns confidence 0.85 to a
type coercion on a known typed field. -/
def findTypeMismatches (p : SemParsed) (opts : FixerOptions) :
    List FixSuggestion :=
  p.lines.filterMap (fun line =>
    if line.type != .keyValue then none
    else
      let key := line.key.getD []
      let v := line.value.getD []
      let newValue : Option Chars :=
        match getExpectedType key with
        | some .number =>
            match quotedNumeric v with
            | some inner => some inner
            | none => (numberWords.find? (fun w => w.1 == lowerSeg v)).map
                (fun w => w.2)
        | some .boolean =>
            if lowerSeg v == "yes".data || v == "1".data then
              some "true".data
            else if lowerSeg v == "no".data || v == "0".data then
              some "false".data
            else none
        | _ => none
      match newValue with
      | some nv =>
          if nv == v then none
          else
            let prefixPart := if line.isListItem then "- ".data else []
            let fix : FixSuggestion :=
              { lineNumber := (line.lineNumber : Int), type := .typeCoercion,
                original := line.content,
                fixed := spaces line.indent ++ prefixPart ++ key ++
                  ": ".data ++ nv,
                confidence := 85/100, severity := .warning }
            if opts.confidenceThreshold ≤ fix.confidence then some fix else none
      | none => none)

/-! ## Intelligent fixer (`src/semantic/intelligent-fixer.ts`) -/

/-- Structured error of the external `js-yaml` parser: an optional mark
with zero-based line and column, and a message. -/
structure JsYamlErr where
  mark : Option (Nat × Nat)
  message : Chars
  deriving Repr

/-- The external `js-yaml` `load`: `none` is success, `some e` the caught
exception. -/
abbrev JsParse := Chars → Option JsYamlErr

/-- Stable insertion of a fix into a descending-by-line list, after equal
keys: together with `sortFixesDesc` this is the (stable) JS
`sort((a, b) => b.lineNumber - a.lineNumber)`. -/
def insertFixDesc (f : FixSuggestion) : List FixSuggestion → List FixSuggestion
  | [] => [f]
  | g :: t => if f.lineNumber ≤ g.lineNumber then g :: insertFixDesc f t
              else f :: g :: t

def sortFixesDesc (fixes : List FixSuggestion) : List FixSuggestion :=
  fixes.foldl (fun acc f => insertFixDesc f acc) []

/-- Stable JS `sort((a, b) => a.lineNumber - b.lineNumber)`. -/
def insertFixAsc (f : FixSuggestion) : List FixSuggestion → List FixSuggestion
  | [] => [f]
  | g :: t => if g.lineNumber ≤ f.lineNumber then g :: insertFixAsc f t
              else f :: g :: t

def sortFixesAsc (fixes : List FixSuggestion) : List FixSuggestion :=
  fixes.foldl (fun acc f => insertFixAsc f acc) []

/-- Loop body of `applyFixes`: rewrite the target line when the 1-based
target is in range, otherwise leave the lines untouched. -/
def applyOneFix (ls : List Chars) (fix : FixSuggestion) : List Chars :=
  if 0 < fix.lineNumber && fix.lineNumber ≤ (ls.length : Int) then
    ls.set (fix.lineNumber - 1).toNat fix.fixed
  else ls

/-- Transliteration of `IntelligentYAMLFixer.applyFixes`: rewrite each
in-range target line with the fix's replacement, in descending line
order. -/
def applyFixes (yamlContent : Chars) (fixes : List FixSuggestion) : Chars :=
  let lines := splitNl yamlContent
  let sorted := sortFixesDesc fixes
  joinNl (sorted.foldl applyOneFix lines)

/-- One round of suggestion collection of `IntelligentYAMLFixer.fix`:
parse semantically, then run the four passes in order. -/
def iterationFixes (opts : FixerOptions) (currentYaml : Chars) :
    List FixSuggestion :=
  let p := semParse currentYaml
  findMissingColons p opts ++ findTypos p opts ++ findBrokenLists p opts ++
    findTypeMismatches p opts

/-- The `while (iteration < maxIterations)` loop of
`IntelligentYAMLFixer.fix`, with the remaining iteration budget as fuel:
stop when no suggestion passes the filter, otherwise apply, accumulate,
and stop early as soon as the text parses. -/
def fixLoop (parse : JsParse) (opts : FixerOptions) :
    Nat → Chars → List FixSuggestion → Chars × List FixSuggestion
  | 0, currentYaml, allFixes => (currentYaml, allFixes)
  | fuel + 1, currentYaml, allFixes =>
      let validFixes :=
        filterByConfidence (iterationFixes opts currentYaml)
          opts.confidenceThreshold
      if validFixes.isEmpty then (currentYaml, allFixes)
      else
        let nextYaml := applyFixes currentYaml validFixes
        let acc := allFixes ++ validFixes
        match parse nextYaml with
        | none => (nextYaml, acc)
        | some _ => fixLoop parse opts fuel nextYaml acc

structure ValidationErrorI where
  line : Nat
  message : Chars
  severity : Severity
  deriving DecidableEq, Repr

structure ValidationResultI where
  isValid : Bool
  fixes : List FixSuggestion
  errors : List ValidationErrorI
  fixedYaml : Chars
  confidence : ℚ
  deriving Repr

/-- JavaScript `error.mark?.line || 0`. -/
def errMarkLine (e : JsYamlErr) : Nat :=
  match e.mark with
  | some m => m.1
  | none => 0

/-- Transliteration of `IntelligentYAMLFixer.fix`: the bounded iterative
loop, overall confidence, ascending sort of the applied fixes, and a
final parse that either validates the result or records the caught
parser error (severity `error`, line from the error mark). -/
def intelligentFix (parse : JsParse) (opts : FixerOptions)
    (yamlContent : Chars) : ValidationResultI :=
  let r := fixLoop parse opts opts.maxIterations yamlContent []
  let overallConfidence := calculateOverallConfidence r.2
  let sortedFixes := sortFixesAsc r.2
  match parse r.1 with
  | none =>
      { isValid := true, fixes := sortedFixes, errors := [],
        fixedYaml := r.1, confidence := overallConfidence }
  | some e =>
      { isValid := false, fixes := sortedFixes,
        errors := [{ line := errMarkLine e, message := e.message,
                     severity := .error }],
        fixedYaml := r.1, confidence := overallConfidence }

/-! ## C8: the indent stack is strictly increasing bottom-to-top -/

/-- Sortedness of the tracker stack: with the top of the stack at the head
of the list, indents strictly decrease towards the bottom; equivalently
the stack is strictly increasing in indent from bottom to top. -/
def stackSorted (stack : List IndentLevel) : Prop :=
  List.Pairwise (fun a b => b.indent < a.indent) stack

/-! ## C3: iteration bound and early stop of the fix loop -/

/-- Number of loop-body executions of `fixLoop` (the source increments
`iteration` at the top of each executed `while` body). -/
def fixLoopIters (parse : JsParse) (opts : FixerOptions) :
    Nat → Chars → Nat
  | 0, _ => 0
  | fuel + 1, currentYaml =>
      let validFixes :=
        filterByConfidence (iterationFixes opts currentYaml)
          opts.confidenceThreshold
      if validFixes.isEmpty then 1
      else
        match parse (applyFixes currentYaml validFixes) with
        | none => 1
        | some _ =>
            1 + fixLoopIters parse opts fuel (applyFixes currentYaml validFixes)

def c3Parse : JsParse := fun _ => some { mark := some (2, 5), message := "m".data }

/-! ## C4: fixing already-valid input is not a no-op -/

def jsParseAlwaysOk : JsParse := fun _ => none

/-! ## C5: confidence monotonicity fails across the iterative loop -/

/-- Parser stub for the C5 counterexample, consistent with js-yaml on the
texts the run reaches: a plain scalar followed by a deeper `image:` line
is a syntax error, while the colon-fixed variants parse. -/
def c5Parse : JsParse := fun s =>
  if s == "Zqq\n  image: nginx\nreps: 2".data then
    some { mark := none, message := "bad indentation".data }
  else none

/-! ## C10: frame effect of `applyFixes` -/

def newlineFix : FixSuggestion :=
  { lineNumber := 1, type := .missingColon, original := "x".data,
    fixed := "a\nb".data, confidence := 1, severity := .error }

/-! ## Core fixer knowledge base (`src/core/yaml-fixer.ts`, constants) -/

/-- `KEY_ALIASES` of `src/core/yaml-fixer.ts`. -/
def keyAliasesStr : List (String × String) :=
  [("met", "metadata"), ("meta", "metadata"), ("metdata", "metadata"),
   ("metadata_", "metadata"), ("metadta", "metadata"),
   ("specf", "spec"), ("spec_", "spec"), ("sepc", "spec"), ("spc", "spec"),
   ("contianers", "containers"), ("containers_", "containers"),
   ("conteiners", "containers"), ("containres", "containers"),
   ("volumns", "volumes"), ("volums", "volumes"), ("volumes_", "volumes"),
   ("volumnes", "volumes"),
   ("envs", "env"), ("env_", "env"), ("enviroment", "env"),
   ("environment", "env"),
   ("labels_", "labels"), ("lables", "labels"), ("labes", "labels"),
   ("annotations_", "annotations"), ("annotaions", "annotations"),
   ("image_", "image"), ("img", "image"),
   ("ports_", "ports"), ("port_", "ports"),
   ("selector_", "selector"), ("selecter", "selector"),
   ("replicas_", "replicas"), ("replica", "replicas"),
   ("namespace_", "namespace"), ("namespce", "namespace"),
   ("namesapce", "namespace"),
   ("dat", "data"),
   ("securitycontext", "securityContext"), ("fsgroup", "fsGroup"),
   ("runasuser", "runAsUser"), ("accessmodes", "accessModes")]

def keyAliases : List (Chars × Chars) :=
  keyAliasesStr.map (fun p => (p.1.data, p.2.data))

/-- JavaScript `KEY_ALIASES[k]` (`undefined` is `none`). -/
def keyAliasLookup (k : Chars) : Option Chars :=
  (keyAliases.find? (fun p => p.1 == k)).map (fun p => p.2)

/-- `KEY_ALIASES[key.toLowerCase()] || KEY_ALIASES[key]`. -/
def aliasOf (k : Chars) : Option Chars :=
  (keyAliasLookup (lowerSeg k)).orElse (fun _ => keyAliasLookup k)

/-- `KEY_ALIASES[key.toLowerCase()] || KEY_ALIASES[key] || key`. -/
def aliasOrSelf (k : Chars) : Chars := (aliasOf k).getD k

/-- `KNOWN_K8S_KEYS` of `src/core/yaml-fixer.ts`. -/
def knownK8sKeysStr : List String :=
  ["apiVersion", "kind", "metadata", "spec", "status",
   "name", "namespace", "labels", "annotations",
   "replicas", "selector", "template", "strategy",
   "containers", "initContainers", "volumes", "volumeMounts",
   "image", "imagePullPolicy", "command", "args", "env", "envFrom",
   "ports", "containerPort", "hostPort", "protocol",
   "resources", "limits", "requests", "cpu", "memory",
   "restartPolicy", "nodeSelector", "affinity", "tolerations",
   "serviceAccountName", "securityContext", "hostNetwork",
   "type", "clusterIP", "externalIPs", "loadBalancerIP",
   "port", "targetPort", "nodePort",
   "path", "pathType", "backend", "serviceName", "servicePort",
   "data", "stringData", "binaryData",
   "rules", "verbs", "apiGroups", "resources",
   "effect", "key", "operator", "value", "tolerationSeconds",
   "persistentVolumeClaim", "accessModes", "fsGroup", "runAsUser",
   "matchLabels", "claimName", "storage", "disktype"]

def knownK8sKeys : List Chars := knownK8sKeysStr.map String.data

/-- `NUMERIC_FIELDS` of `src/core/yaml-fixer.ts`. -/
def numericFieldsStr : List String :=
  ["replicas", "containerPort", "port", "targetPort", "nodePort",
   "hostPort", "timeoutSeconds", "periodSeconds", "successThreshold",
   "failureThreshold", "initialDelaySeconds",
   "terminationGracePeriodSeconds", "activeDeadlineSeconds",
   "progressDeadlineSeconds", "revisionHistoryLimit",
   "minReadySeconds", "weight", "priority"]

def numericFields : List Chars := numericFieldsStr.map String.data

/-- The change types pushed by the three phases. -/
inductive CType where
  | INDENT | COLON | STRUCTURE | LIST | KEY_FIX | QUOTE | DUPLICATE | NUMERIC
  deriving DecidableEq, Repr

/-- A `FixChange` record of `src/types/yaml-validator.types.ts`. -/
structure FixChange where
  ctype : CType
  line : Nat
  original : Chars
  fixed : Chars
  reason : Chars
  severity : Severity
  deriving DecidableEq, Repr

/-! ## Line-matching helpers of phase 1 (transliterated regexes) -/

/-- `line.replace(/\t/g, ' '.repeat(sz))`. -/
def replaceTabs (sz : Nat) : Chars → Chars
  | [] => []
  | c :: t => (if c == '\t' then spaces sz else [c]) ++ replaceTabs sz t

/-- JavaScript `lines[j]` with a possibly negative index. -/
def rawAt (allLines : List Chars) (j : Int) : Option Chars :=
  if j < 0 then none else allLines.get? j.toNat

/-- `lines[j]?.includes(p)` — `undefined` is falsy. -/
def optIncludes (o : Option Chars) (p : Chars) : Bool :=
  match o with
  | some l => containsSeg p l
  | none => false

/-- The JavaScript regex `.`: any character but a line terminator. -/
def isDotChar (c : Char) : Bool :=
  !(c == '\n' || c == '\r' || c == Char.ofNat 0x2028 || c == Char.ofNat 0x2029)

/-- Character class `[a-zA-Z0-9_\/:.@=+-]` of FIX 1's value group. -/
def isValChar (c : Char) : Bool :=
  isAsciiAlpha c || isAsciiDigit c || c == '_' || c == '/' || c == ':' ||
  c == '.' || c == '@' || c == '=' || c == '+' || c == '-'

/-- FIX 1's `line.match(/^(\s*)([a-zA-Z0-9_-]+)\s+([a-zA-Z0-9_\/:.@=+-]+)$/)`:
the three character classes are disjoint from whitespace, so the
backtracking match is this deterministic split. -/
def keyValueMatchFn (l : Chars) : Option (Chars × Chars × Chars) :=
  let ind := l.takeWhile isJsWs
  let rest := l.drop ind.length
  let key := rest.takeWhile isKeyChar
  if key.isEmpty then none
  else
    let rest2 := rest.drop key.length
    let ws := rest2.takeWhile isJsWs
    if ws.isEmpty then none
    else
      let val := rest2.drop ws.length
      if !val.isEmpty && val.all isValChar then some (ind, key, val) else none

/-- FIX 1's guard `line.match(/^\s*[a-zA-Z0-9_-]+:\s/)`. -/
def looksLikeKeyValue (l : Chars) : Bool :=
  let rest := l.drop (l.takeWhile isJsWs).length
  let key := rest.takeWhile isKeyChar
  !key.isEmpty &&
    (match rest.drop key.length with
     | ':' :: c :: _ => isJsWs c
     | _ => false)

/-- Character class `[A-Z0-9_]` of FIX 3. -/
def isOrphChar (c : Char) : Bool := isAsciiUpper c || isAsciiDigit c || c == '_'

/-- FIX 3's `line.match(/^(\s*)-\s+([A-Z0-9_]+)$/)`. -/
def orphanedMatchFn (l : Chars) : Option (Chars × Chars) :=
  let ind := l.takeWhile isJsWs
  match l.drop ind.length with
  | '-' :: rest =>
      let ws := rest.takeWhile isJsWs
      if ws.isEmpty then none
      else
        let key := rest.drop ws.length
        if !key.isEmpty && key.all isOrphChar then some (ind, key) else none
  | _ => none

/-- FIX 7's `currentTrimmed.match(/^-\s+([a-zA-Z0-9_-]+)$/)`. -/
def listKeyMatchFn (t : Chars) : Option Chars :=
  match t with
  | '-' :: rest =>
      let ws := rest.takeWhile isJsWs
      if ws.isEmpty then none
      else
        let key := rest.drop ws.length
        if !key.isEmpty && key.all isKeyChar then some key else none
  | _ => none

/-- Step 3's guard `currentTrimmed.match(/^[a-zA-Z0-9_-]+:/)`. -/
def startsKeyColon (t : Chars) : Bool :=
  let key := t.takeWhile isKeyChar
  !key.isEmpty && (t.drop key.length).head? == some ':'

/-- Step 4's
`line.replace(/^(\s*)([^:\s]+):(?!\s)([^#\s].*)/, '$1$2: $3')`, as the
result when the regex matches (the replacement only inserts a space after
the first colon, so the unmatched tail is unaffected either way). -/
def colonSpaceFixFn (l : Chars) : Option Chars :=
  let ind := l.takeWhile isJsWs
  let rest := l.drop ind.length
  let run := rest.takeWhile (fun c => !(c == ':') && !isJsWs c)
  if run.isEmpty then none
  else
    match rest.drop run.length with
    | ':' :: c :: cs =>
        if !isJsWs c && !(c == '#') then some (ind ++ run ++ ':' :: ' ' :: c :: cs)
        else none
    | _ => none

/-- Step 6's `line.match(/^(\s*)-\s+([a-zA-Z0-9_-]+)\s+(.+)$/)`.  When the
tail after the key is all whitespace, the greedy `\s+` backtracks one
character so that `(.+)$` matches the final whitespace character — kept
faithfully, including the requirement that `.` match no line terminator. -/
def listItemMatchFn (l : Chars) : Option (Chars × Chars × Chars) :=
  let ind := l.takeWhile isJsWs
  match l.drop ind.length with
  | '-' :: rest =>
      let ws1 := rest.takeWhile isJsWs
      if ws1.isEmpty then none
      else
        let r2 := rest.drop ws1.length
        let key := r2.takeWhile isKeyChar
        if key.isEmpty then none
        else
          let r3 := r2.drop key.length
          let ws2 := r3.takeWhile isJsWs
          if ws2.isEmpty then none
          else
            let val := r3.drop ws2.length
            if !val.isEmpty then
              if val.all isDotChar then some (ind, key, val) else none
            else if 2 ≤ ws2.length ∧ (ws2.getLast?.map isDotChar).getD false = true then
              some (ind, key, [ws2.getLast?.getD ' '])
            else none
  | _ => none

/-- Step 7's `line.match(/^(\s*)([a-zA-Z0-9_-]+):/)` together with the
rest of the line after the matched colon (the replacement target). -/
def keyColonMatchFn (l : Chars) : Option (Chars × Chars × Chars) :=
  let ind := l.takeWhile isJsWs
  let rest := l.drop ind.length
  let key := rest.takeWhile isKeyChar
  if !key.isEmpty && (rest.drop key.length).head? == some ':' then
    some (ind, key, rest.drop (key.length + 1))
  else none

/-- The matched text of `line.match(/^(\s*)/)`. -/
def leadWsSeg (l : Chars) : Chars := l.takeWhile isJsWs

/-- Character class `[ -]` of FIX 5's key-extract prefix. -/
def isPreChar (c : Char) : Bool := c == ' ' || c == '-'

/-- One attempt of FIX 5's `line.match(/^[ -]*([a-zA-Z0-9_-]+):/)` with the
`[ -]*` prefix fixed to length `n`. -/
def keyExtractTry (l : Chars) (n : Nat) : Option Chars :=
  let rest := l.drop n
  let k := rest.takeWhile isKeyChar
  if !k.isEmpty && (rest.drop k.length).head? == some ':' then some k else none

/-- Backtracking over the greedy `[ -]*` prefix, longest first. -/
def keyExtractGo (l : Chars) : Nat → Option Chars
  | 0 => keyExtractTry l 0
  | n + 1 =>
      match keyExtractTry l (n + 1) with
      | some k => some k
      | none => keyExtractGo l n

/-- FIX 5's `line.match(/^[ -]*([a-zA-Z0-9_-]+):/)`, key group. -/
def keyExtract (l : Chars) : Option Chars :=
  keyExtractGo l (l.takeWhile isPreChar).length

/-! ## Phase 1 of `YAMLFixer` (`phase1_syntaxNormalization`) -/

/-- Keys accepted by FIX 7. -/
def fix7Keys : List Chars :=
  (["metadata", "spec", "accessModes", "volumeMounts", "resources",
    "requests", "limits"] : List String).map String.data

/-- What one phase-1 iteration computes before the duplicate-key block:
the transformed line, the stale `updatedTrimmed` snapshot the later steps
read, the ConfigMap-data state, and the changes pushed. -/
structure TransRes where
  line : Chars
  updT : Chars
  inCM : Bool
  cmIndent : Int
  chs : List FixChange

/-- Steps 1–8 and FIX 6/4/1/3/7 of one `phase1_syntaxNormalization` loop
iteration (everything between the skip checks and FIX 5), transliterated
in source order.  `prevNorm` is the last line pushed to `normalizedLines`. -/
def transformLine (allLines : List Chars) (sz : Nat) (i : Nat)
    (prevNorm : Option Chars) (inCM0 : Bool) (cmi0 : Int) (line0 : Chars) :
    TransRes :=
  let original := line0
  let trimmed := jsTrim line0
  -- 1. tabs to spaces
  let s1 : Chars × List FixChange :=
    if line0.contains '\t' then
      let l := replaceTabs sz line0
      (l, [{ ctype := .INDENT, line := i + 1, original := original, fixed := l,
             reason := "Converted tabs to spaces".data,
             severity := .warning }])
    else (line0, [])
  -- 2. trailing whitespace
  let line2 := trimR s1.1
  -- FIX 6: ConfigMap data nesting
  let s3 : Chars × Bool × Int × List FixChange :=
    if trimmed == "data:".data &&
       (optIncludes (rawAt allLines ((i : Int) - 1)) "ConfigMap".data ||
        optIncludes (rawAt allLines ((i : Int) - 2)) "ConfigMap".data) then
      (line2, true, searchNonWs line2, ([] : List FixChange))
    else if inCM0 then
      if startsWithSeg "---".data trimmed ||
         (decide (searchNonWs line2 ≤ cmi0) && !trimmed.isEmpty) then
        (line2, false, cmi0, [])
      else if searchNonWs line2 ≤ cmi0 then
        let l := spaces (cmi0 + (sz : Int)).toNat ++ trimmed
        (l, true, cmi0,
         [{ ctype := .INDENT, line := i + 1, original := original, fixed := l,
            reason := "Fixed ConfigMap data nesting".data, severity := .error }])
      else (line2, true, cmi0, [])
    else (line2, false, cmi0, [])
  -- FIX 4: under-indentation relative to a list item
  let s4 : Chars × List FixChange :=
    match prevNorm with
    | none => (s3.1, ([] : List FixChange))
    | some prevLine =>
        let prevTrimmed := jsTrim prevLine
        if startsWithSeg "- ".data prevTrimmed && containsSeg ":".data prevTrimmed then
          let prevDashPos := indexOfSeg "-".data prevLine
          let ci := searchNonWs s3.1
          let expected := prevDashPos + 2
          if containsSeg ":".data trimmed && decide (ci < expected) &&
             decide (prevDashPos < ci) then
            let l := spaces expected.toNat ++ trimmed
            (l, [{ ctype := .INDENT, line := i + 1, original := original,
                   fixed := l,
                   reason := "Fixed under-indentation relative to list item".data,
                   severity := .error }])
          else (s3.1, [])
        else (s3.1, [])
  let ct0 := jsTrim s4.1
  -- FIX 1: missing colon, general "key value" pattern
  let kvm := keyValueMatchFn s4.1
  let s5 : Chars × Chars × List FixChange :=
    match kvm with
    | some (ind, key, val) =>
        if !startsWithSeg "-".data ct0 && !looksLikeKeyValue s4.1 then
          let l := ind ++ key ++ ": ".data ++ val
          (l, jsTrim l,
           [{ ctype := .COLON, line := i + 1, original := original, fixed := l,
              reason := "Added missing colon to \"".data ++ key ++ "\"".data,
              severity := .critical }])
        else (s4.1, ct0, [])
    | none => (s4.1, ct0, [])
  -- FIX 3: orphaned list items
  let s6 : Chars × Chars × List FixChange :=
    match orphanedMatchFn s5.1 with
    | some (ind, key) =>
        if i + 1 < allLines.length then
          if startsWithSeg "value:".data (jsTrim ((allLines.get? (i + 1)).getD [])) then
            let l := ind ++ "- name: ".data ++ key
            (l, jsTrim l,
             [{ ctype := .STRUCTURE, line := i + 1, original := original,
                fixed := l,
                reason := "Fixed orphaned list item \"".data ++ key ++ "\"".data,
                severity := .error }])
          else (s5.1, s5.2.1, [])
        else (s5.1, s5.2.1, [])
    | none => (s5.1, s5.2.1, [])
  -- FIX 7: list-context colons
  let s7 : Chars × Chars × List FixChange :=
    if startsWithSeg "- ".data s6.2.1 && !containsSeg ":".data s6.2.1 then
      match listKeyMatchFn s6.2.1 with
      | some key =>
          if fix7Keys.contains key then
            let l := leadWsSeg s6.1 ++ "- ".data ++ key ++ ":".data
            (l, jsTrim l,
             [{ ctype := .COLON, line := i + 1, original := original, fixed := l,
                reason := "Added missing colon to list item \"".data ++ key ++
                  "\"".data,
                severity := .critical }])
          else (s6.1, s6.2.1, [])
      | none => (s6.1, s6.2.1, [])
    else (s6.1, s6.2.1, [])
  -- 3. missing colons for known K8s keys
  let s8 : Chars × List FixChange :=
    if !startsKeyColon s7.2.1 && !startsWithSeg "-".data s7.2.1 &&
       !startsWithSeg "#".data s7.2.1 then
      match jsSplitWs s7.2.1 with
      | [] => (s7.1, ([] : List FixChange))
      | pk :: restParts =>
          let correctKey := aliasOrSelf pk
          if knownK8sKeys.contains correctKey || knownK8sKeys.contains pk then
            if restParts.isEmpty then
              let l := leadWsSeg s7.1 ++ correctKey ++ ":".data
              (l, [{ ctype := .COLON, line := i + 1, original := original,
                     fixed := l,
                     reason := "Added missing colon to \"".data ++ correctKey ++
                       "\"".data,
                     severity := .critical }])
            else if kvm.isNone then
              let l := leadWsSeg s7.1 ++ correctKey ++ ": ".data ++
                joinWithSpace restParts
              (l, [{ ctype := .COLON, line := i + 1, original := original,
                     fixed := l,
                     reason := "Added missing colon to \"".data ++ correctKey ++
                       "\"".data,
                     severity := .critical }])
            else (s7.1, [])
          else (s7.1, [])
    else (s7.1, [])
  let updT := jsTrim s8.1
  -- 4. missing space after colon
  let s9 : Chars × List FixChange :=
    if containsSeg ":".data updT && !containsSeg "://".data updT then
      match colonSpaceFixFn s8.1 with
      | some l =>
          (l, [{ ctype := .COLON, line := i + 1, original := s8.1, fixed := l,
                 reason := "Added space after colon".data,
                 severity := .info }])
      | none => (s8.1, [])
    else (s8.1, [])
  -- 5. list item spacing
  let s10 : Chars × List FixChange :=
    match updT with
    | c0 :: c1 :: _ =>
        if c0 == '-' && !(c1 == ' ') && !(c1 == '-') then
          let l := leadWsSeg s9.1 ++ "- ".data ++ updT.drop 1
          (l, [{ ctype := .LIST, line := i + 1, original := original, fixed := l,
                 reason := "Added space after list marker".data,
                 severity := .info }])
        else (s9.1, [])
    | _ => (s9.1, [])
  -- 6. list items with missing colons
  let s11 : Chars × List FixChange :=
    match listItemMatchFn s10.1 with
    | some (ind, key, val) =>
        if !containsSeg ":".data s10.1 then
          let correctKey := aliasOrSelf key
          if knownK8sKeys.contains correctKey || knownK8sKeys.contains key then
            let l := ind ++ "- ".data ++ correctKey ++ ": ".data ++ val
            (l, [{ ctype := .COLON, line := i + 1, original := original,
                   fixed := l,
                   reason := "Added missing colon in list item \"".data ++
                     correctKey ++ "\"".data,
                   severity := .critical }])
          else (s10.1, [])
        else (s10.1, [])
    | none => (s10.1, [])
  -- 7. common key typos
  let s12 : Chars × List FixChange :=
    match keyColonMatchFn s11.1 with
    | some (ind, key, rest) =>
        match aliasOf key with
        | some correctKey =>
            if !(correctKey == key) then
              let l := ind ++ correctKey ++ ":".data ++ rest
              (l, [{ ctype := .KEY_FIX, line := i + 1, original := original,
                     fixed := l,
                     reason := "Fixed typo \"".data ++ key ++ "\" -> \"".data ++
                       correctKey ++ "\"".data,
                     severity := .warning }])
            else (s11.1, [])
        | none => (s11.1, [])
    | none => (s11.1, [])
  -- 8. unclosed quotes (both counts taken before either append)
  let dq := s12.1.countP (fun c => c == '"')
  let sq := s12.1.countP (fun c => c == Char.ofNat 39)
  let s13 : Chars × List FixChange :=
    if dq % 2 ≠ 0 then
      let l := s12.1 ++ ['"']
      (l, [{ ctype := .QUOTE, line := i + 1, original := original, fixed := l,
             reason := "Closed unclosed double quote".data,
             severity := .critical }])
    else (s12.1, [])
  let s14 : Chars × List FixChange :=
    if sq % 2 ≠ 0 then
      let l := s13.1 ++ [Char.ofNat 39]
      (l, [{ ctype := .QUOTE, line := i + 1, original := original, fixed := l,
             reason := "Closed unclosed single quote".data,
             severity := .critical }])
    else (s13.1, [])
  { line := s14.1, updT := updT, inCM := s3.2.1, cmIndent := s3.2.2.1,
    chs := s1.2 ++ s3.2.2.2 ++ s4.2 ++ s5.2.2 ++ s6.2.2 ++ s7.2.2 ++ s8.2 ++
      s9.2 ++ s10.2 ++ s11.2 ++ s12.2 ++ s13.2 ++ s14.2 }

/-! ## FIX 5: duplicate-key state machine of phase 1 -/

/-- The `seenKeys` map: JavaScript `Map<number, Set<string>>` as an
insertion-ordered association list. -/
abbrev SeenKeys := List (Nat × List Chars)

/-- `seenKeys.get(c)` as the recorded key set (`[]` when absent). -/
def seenLookup (m : SeenKeys) (c : Nat) : List Chars :=
  ((m.find? (fun e => e.1 == c)).map (fun e => e.2)).getD []

/-- `seenKeys.get(keyStart).add(key)`, creating the level's set when
absent (appended at the end, as JavaScript `Map.set` does). -/
def seenAdd : SeenKeys → Nat → Chars → SeenKeys
  | [], c, k => [(c, [k])]
  | e :: t, c, k =>
      if e.1 == c then (e.1, e.2 ++ [k]) :: t else e :: seenAdd t c k

/-- The two reset steps run on `seenKeys` before the duplicate check:
on a dedent (`currentIndent < lastIndent`) delete every level strictly
deeper than the current indent; on a new list item (stale
`updatedTrimmed` starts with `- `) delete every level at or deeper than
the current indent. -/
def dupResets (seen : SeenKeys) (li ci : Int) (updT : Chars) : SeenKeys :=
  let s1 : SeenKeys := if ci < li then seen.filter (fun e => decide ((e.1 : Int) ≤ ci)) else seen
  if startsWithSeg "- ".data updT then s1.filter (fun e => decide ((e.1 : Int) < ci))
  else s1

/-- Outcome of the FIX 5 block on one line. -/
structure DupRes where
  seen : SeenKeys
  last : Int
  dropped : Bool
  dupKey : Option Chars

/-- FIX 5, lines 450–507 of `src/core/yaml-fixer.ts`: skip when the line
is all whitespace; reset the deeper levels on dedent and on a new list
item; clear everything on a `---` separator; then extract the key, drop
the line when the key was already seen at its `indexOf` column (leaving
`lastIndent` untouched, as the `continue` skips its update), and record
it otherwise. -/
def dupUpdate (seen : SeenKeys) (li : Int) (line updT : Chars) : DupRes :=
  if searchNonWs line == -1 then ⟨seen, li, false, none⟩
  else
    let s2 := dupResets seen li (searchNonWs line) updT
    if startsWithSeg "---".data line then ⟨[], 0, false, none⟩
    else
      match keyExtract line with
      | some k =>
          if (seenLookup s2 (indexOfSeg k line).toNat).contains k then
            ⟨s2, li, true, some k⟩
          else ⟨seenAdd s2 (indexOfSeg k line).toNat k, searchNonWs line, false, none⟩
      | none => ⟨s2, searchNonWs line, false, none⟩

/-- The `DUPLICATE` change pushed when line `i` (0-based) is dropped. -/
def mkDupChange (i : Nat) (original k : Chars) : FixChange :=
  { ctype := .DUPLICATE, line := i + 1, original := original, fixed := [],
    reason := "Removed duplicate key \"".data ++ k ++ "\"".data,
    severity := .error }

/-- The block-scalar flag update at the top of each phase-1 iteration. -/
def nextInBlockScalar (prev : Bool) (line0 trimmed : Chars) : Bool :=
  if endsWithSeg "|".data trimmed || endsWithSeg ">".data trimmed then true
  else if prev && !trimmed.isEmpty && !startsWithSeg " ".data line0 then false
  else prev

/-- The mutable state of the `phase1_syntaxNormalization` loop.
`normRev` and `changesRev` accumulate in reverse. -/
structure P1St where
  inBlockScalar : Bool
  inConfigMapData : Bool
  configMapIndent : Int
  seenKeys : SeenKeys
  lastIndent : Int
  normRev : List Chars
  changesRev : List FixChange

def initP1St : P1St :=
  { inBlockScalar := false, inConfigMapData := false, configMapIndent := 0,
    seenKeys := [], lastIndent := 0, normRev := [], changesRev := [] }

/-- `transformLine` at the state's own context. -/
def p1T (allLines : List Chars) (sz i : Nat) (st : P1St) (line0 : Chars) :
    TransRes :=
  transformLine allLines sz i st.normRev.head? st.inConfigMapData
    st.configMapIndent line0

/-- The non-skipped path of one phase-1 iteration: transform the line,
run FIX 5, and push the line (or drop it and push the `DUPLICATE`
change). -/
def p1Main (allLines : List Chars) (sz i : Nat) (st : P1St) (line0 : Chars) :
    P1St :=
  let T := p1T allLines sz i st line0
  let d := dupUpdate st.seenKeys st.lastIndent T.line T.updT
  if d.dropped then
    { inBlockScalar := nextInBlockScalar st.inBlockScalar line0 (jsTrim line0),
      inConfigMapData := T.inCM, configMapIndent := T.cmIndent,
      seenKeys := d.seen, lastIndent := d.last, normRev := st.normRev,
      changesRev := mkDupChange i line0 (d.dupKey.getD []) ::
        (T.chs.reverse ++ st.changesRev) }
  else
    { inBlockScalar := nextInBlockScalar st.inBlockScalar line0 (jsTrim line0),
      inConfigMapData := T.inCM, configMapIndent := T.cmIndent,
      seenKeys := d.seen, lastIndent := d.last, normRev := T.line :: st.normRev,
      changesRev := T.chs.reverse ++ st.changesRev }

/-- One iteration of the phase-1 loop: skip (push the raw line) inside a
block scalar past its first line and on blank or comment lines, process
otherwise. -/
def phase1Step (allLines : List Chars) (sz i : Nat) (st : P1St)
    (line0 : Chars) : P1St :=
  if nextInBlockScalar st.inBlockScalar line0 (jsTrim line0) && decide (0 < i) then
    { st with inBlockScalar := nextInBlockScalar st.inBlockScalar line0 (jsTrim line0),
              normRev := line0 :: st.normRev }
  else if (jsTrim line0).isEmpty || startsWithSeg "#".data (jsTrim line0) then
    { st with inBlockScalar := nextInBlockScalar st.inBlockScalar line0 (jsTrim line0),
              normRev := line0 :: st.normRev }
  else p1Main allLines sz i st line0

def phase1Go (allLines : List Chars) (sz : Nat) :
    List Chars → Nat → P1St → P1St
  | [], _, st => st
  | l :: rest, i, st => phase1Go allLines sz rest (i + 1) (phase1Step allLines sz i st l)

/-- `YAMLFixer.phase1_syntaxNormalization` (indent size `sz`). -/
def phase1_syntaxNormalization (sz : Nat) (content : Chars) :
    List Chars × List FixChange :=
  let lines := splitNl content
  let fin := phase1Go lines sz lines 0 initP1St
  (fin.normRev.reverse, fin.changesRev.reverse)

/-! ## Phase 2 of `YAMLFixer` (`phase2_parseValidation`) -/

/-- A `ValidationError` of `src/types/yaml-validator.types.ts`; the
`column` property is absent (`none`) on the records `validate` builds
from phase-1 changes. -/
structure ValidationError where
  line : Nat
  column : Option Nat
  message : Chars
  severity : Severity
  code : Chars
  fixable : Bool
  deriving DecidableEq, Repr

/-- The catch branch of `phase2_parseValidation`: the caught js-yaml
error converted to a critical record with one-based line and column
(zero when the error carries no mark). -/
def phase2Err (e : JsYamlErr) : ValidationError :=
  { line := match e.mark with | some m => m.1 + 1 | none => 0,
    column := some (match e.mark with | some m => m.2 + 1 | none => 0),
    message := e.message, severity := .critical,
    code := "YAML_PARSE_ERROR".data, fixable := false }

/-! ## Phase 3 of `YAMLFixer` (`phase3_semanticFixes`) -/

/-- `value.replace(/['"]/g, '')`. -/
def stripQuotes (cs : Chars) : Chars :=
  cs.filter (fun c => !(c == '"' || c == Char.ofNat 39))

/-- `WORD_TO_NUM` with the decimal rendering of the number. -/
def wordToNum (w : Chars) : Option Chars :=
  ((([("one", "1"), ("two", "2"), ("three", "3"), ("four", "4"),
      ("five", "5"), ("six", "6"), ("seven", "7"), ("eight", "8"),
      ("nine", "9"), ("ten", "10")] : List (String × String)).map
        (fun p => (p.1.data, p.2.data))).find?
    (fun p => p.1 == w)).map (fun p => p.2)

def hexDigit (c : Char) : Bool :=
  isAsciiDigit c || ('a' ≤ c && c ≤ 'f') || ('A' ≤ c && c ≤ 'F')

def octDigit (c : Char) : Bool := '0' ≤ c && c ≤ '7'

def binDigit (c : Char) : Bool := c == '0' || c == '1'

def allNonEmpty (p : Char → Bool) (cs : Chars) : Bool := !cs.isEmpty && cs.all p

/-- Optional exponent part of a JavaScript decimal number literal. -/
def expPartOk : Chars → Bool
  | [] => true
  | c :: r =>
      if c == 'e' || c == 'E' then
        match r with
        | s :: r2 =>
            if s == '+' || s == '-' then allNonEmpty isAsciiDigit r2
            else allNonEmpty isAsciiDigit r
        | [] => false
      else false

/-- Unsigned decimal mantissa (digits, optional point) with optional
exponent. -/
def decMantissa (t : Chars) : Bool :=
  let d1 := t.takeWhile isAsciiDigit
  match t.drop d1.length with
  | '.' :: r2 =>
      let d2 := r2.takeWhile isAsciiDigit
      if d1.isEmpty && d2.isEmpty then false
      else expPartOk (r2.drop d2.length)
  | r1 => !d1.isEmpty && expPartOk r1

def decSigned (t : Chars) : Bool :=
  match t with
  | c :: r => if c == '+' || c == '-' then decMantissa r else decMantissa t
  | [] => false

/-- `!isNaN(Number(s))`: the empty (or all-whitespace) string converts
to `0`; otherwise the trimmed text must be a JavaScript numeric string
(`Infinity` with optional sign, hex/octal/binary with `0x`/`0o`/`0b`
prefix, or signed decimal with optional exponent). -/
def jsIsNumeric (s : Chars) : Bool :=
  let t := jsTrim s
  if t.isEmpty then true
  else if t == "Infinity".data || t == "+Infinity".data ||
          t == "-Infinity".data then true
  else
    match t with
    | '0' :: x :: r =>
        if x == 'x' || x == 'X' then allNonEmpty hexDigit r
        else if x == 'o' || x == 'O' then allNonEmpty octDigit r
        else if x == 'b' || x == 'B' then allNonEmpty binDigit r
        else decSigned t
    | _ => decSigned t

/-- Phase 3's `trimmed.match(/^([a-zA-Z0-9_-]+):\s*(.+)$/)`; when the
text after the colon is all whitespace the greedy `\s*` backtracks one
character so that `(.+)$` matches the final whitespace character. -/
def p3KeyMatch (t : Chars) : Option (Chars × Chars) :=
  let key := t.takeWhile isKeyChar
  if key.isEmpty then none
  else
    match t.drop key.length with
    | ':' :: r =>
        let ws := r.takeWhile isJsWs
        let val := r.drop ws.length
        if !val.isEmpty then
          if val.all isDotChar then some (key, val) else none
        else if !ws.isEmpty ∧ (ws.getLast?.map isDotChar).getD false = true then
          some (key, ws.drop (ws.length - 1))
        else none
    | _ => none

/-- One loop iteration of `phase3_semanticFixes` (FIX 2: string-to-number
coercion on the `NUMERIC_FIELDS`). -/
def phase3Step (i : Nat) (line : Chars) : Chars × List FixChange :=
  let original := line
  let trimmed := jsTrim line
  let indent := leadWs line
  if trimmed.isEmpty || startsWithSeg "#".data trimmed then (line, [])
  else
    match p3KeyMatch trimmed with
    | some (key, val) =>
        if numericFields.contains key then
          let cleanValue := jsTrim (stripQuotes val)
          if jsIsNumeric cleanValue && !cleanValue.isEmpty then
            if val.contains '"' || val.contains (Char.ofNat 39) then
              let l := spaces indent ++ key ++ ": ".data ++ cleanValue
              (l, [{ ctype := .NUMERIC, line := i + 1, original := original,
                     fixed := l,
                     reason := "Converted string \"".data ++ val ++
                       "\" to number".data,
                     severity := .info }])
            else (line, [])
          else
            match wordToNum (lowerSeg cleanValue) with
            | some n =>
                let l := spaces indent ++ key ++ ": ".data ++ n
                (l, [{ ctype := .NUMERIC, line := i + 1, original := original,
                       fixed := l,
                       reason := "Converted word \"".data ++ val ++
                         "\" to number".data,
                       severity := .warning }])
            | none => (line, [])
        else (line, [])
    | none => (line, [])

def phase3Go : Nat → List Chars → List Chars × List FixChange
  | _, [] => ([], [])
  | i, l :: rest =>
      let s := phase3Step i l
      let r := phase3Go (i + 1) rest
      (s.1 :: r.1, s.2 ++ r.2)

/-- `YAMLFixer.phase3_semanticFixes` (the `parsed` and `aggressive`
arguments are unused in the source). -/
def phase3_semanticFixes (lines : List Chars) : List Chars × List FixChange :=
  phase3Go 0 lines

/-! ## `YAMLFixer.fix` and `YAMLFixer.validate` -/

/-- A `FixResult` of `src/types/yaml-validator.types.ts`. -/
structure FixResult where
  content : Chars
  fixedCount : Nat
  changes : List FixChange
  errors : List ValidationError
  deriving DecidableEq, Repr

/-- A `ValidationResult` (its `structuralIssues` is always empty). -/
structure ValidationResult where
  valid : Bool
  errors : List ValidationError
  structuralIssues : List ValidationError
  deriving DecidableEq, Repr

/-- `YAMLFixer.fix`.  The external `js-yaml` `loadAll` is the parameter
`parse` (its successful result of arbitrary type `α` because the parsed
documents only flow into phase 3b), and `phase3b_structuralFixes` —
whose body is built around the external `yaml.dump` — is the parameter
`p3b`, returning the dumped content and the explanation. -/
def fixerFix {α : Type} (parse : Chars → Except JsYamlErr α)
    (p3b : α → Chars × Chars) (aggressive : Bool) (sz : Nat)
    (content : Chars) : FixResult :=
  let p1 := phase1_syntaxNormalization sz content
  let fixedContent := joinNl p1.1
  match parse fixedContent with
  | .error e =>
      { content := fixedContent, fixedCount := p1.2.length, changes := p1.2,
        errors := [phase2Err e] }
  | .ok v =>
      let p3 := phase3_semanticFixes p1.1
      let allChanges := p1.2 ++ p3.2
      if aggressive then
        let s := p3b v
        let allChanges2 :=
          if !s.2.isEmpty && !(s.2 == "No structural changes needed".data) then
            allChanges ++
              [{ ctype := .STRUCTURE, line := 0, original := [], fixed := [],
                 reason := s.2, severity := .warning }]
          else allChanges
        { content := s.1, fixedCount := allChanges2.length,
          changes := allChanges2, errors := [] }
      else
        { content := joinNl p3.1, fixedCount := allChanges.length,
          changes := allChanges, errors := [] }

/-- A change reported by `validate`: line, reason, severity and type are
copied, no column is set. -/
def chgToErr (ch : FixChange) : ValidationError :=
  { line := ch.line, column := none, message := ch.reason,
    severity := ch.severity,
    code := (match ch.ctype with
             | .INDENT => "INDENT" | .COLON => "COLON"
             | .STRUCTURE => "STRUCTURE" | .LIST => "LIST"
             | .KEY_FIX => "KEY_FIX" | .QUOTE => "QUOTE"
             | .DUPLICATE => "DUPLICATE" | .NUMERIC => "NUMERIC" :
             String).data,
    fixable := true }

/-- `YAMLFixer.validate`: phase-1 changes reported as fixable errors,
phase 2 run on the original content, no fixed text in the result. -/
def fixerValidate {α : Type} (parse : Chars → Except JsYamlErr α)
    (sz : Nat) (content : Chars) : ValidationResult :=
  let p1 := phase1_syntaxNormalization sz content
  let errs1 := p1.2.map chgToErr
  let errs2 : List ValidationError :=
    match parse content with
    | .ok _ => []
    | .error e => [phase2Err e]
  let errors := errs1 ++ errs2
  let structuralIssues : List ValidationError := []
  { valid := errors.length == 0 && structuralIssues.length == 0,
    errors := errors, structuralIssues := structuralIssues }

def c7AllLines : List Chars := ["name: app".data, "name: dup".data]

def c7St : P1St :=
  { inBlockScalar := false, inConfigMapData := false, configMapIndent := 0,
    seenKeys := [(0, ["name".data])], lastIndent := 0,
    normRev := ["name: app".data], changesRev := [] }

/-! ## C1: error conversion of the fix and validate entry points -/

/-- A js-yaml error with a mark, shared by the C1 theorems. -/
def c1Err : JsYamlErr := { mark := some (4, 7), message := "bad".data }

/-- A parse that always fails with `c1Err` (`js-yaml` view). -/
def c1Parse : JsParse := fun _ => some c1Err

/-- The same failing parse in the `Except` view used by `YAMLFixer`. -/
def c1Fail : Chars → Except JsYamlErr Unit := fun _ => Except.error c1Err

/-! ## Theorems -/

/-! ## Proof infrastructure for the detector -/

theorem indentStyleCounts_spec (ls : List Chars) (a b : Nat) :
    ls.foldl
      (fun (counts : Nat × Nat) l =>
        let sp := leadWs l
        if sp > 0 then
          ((if sp % 4 = 0 then counts.1 + 1 else counts.1),
           (if sp % 2 = 0 then counts.2 + 1 else counts.2))
        else counts)
      (a, b)
    = (a + (ls.filter (fun l => 0 < leadWs l && leadWs l % 4 = 0)).length,
       b + (ls.filter (fun l => 0 < leadWs l && leadWs l % 2 = 0)).length) := by
  induction ls generalizing a b with
  | nil => simp
  | cons h t ih =>
      by_cases hp : 0 < leadWs h <;> by_cases h4 : leadWs h % 4 = 0 <;>
        by_cases h2 : leadWs h % 2 = 0 <;>
        · simp only [List.foldl_cons, List.filter_cons, hp, h4, h2, if_pos, if_neg,
            gt_iff_lt, decide_True, decide_False, Bool.and_true, Bool.and_false,
            Bool.true_and, Bool.false_and, if_true, if_false, not_true, not_false_iff,
            List.length_cons, ih, ite_true, ite_false]
          refine Prod.ext ?_ ?_ <;> simp <;> omega

/-- C9: the indentation-style detector counts indented lines whose indent
width is a multiple of 4 and those whose indent width is a multiple of 2,
and returns 4 exactly when the multiple-of-4 count strictly exceeds the
multiple-of-2 count, returning 2 otherwise (ties included). -/
theorem detectIndentationStyle_counts (content : Chars) :
    detectIndentationStyle content =
      if claimIndentCount 4 content > claimIndentCount 2 content then 4 else 2 := by
  unfold detectIndentationStyle indentStyleCounts claimIndentCount
  rw [indentStyleCounts_spec]
  simp

theorem claimWeight_eq (s : Severity) : claimWeight s = severityWeight s := by
  cases s <;> norm_num [claimWeight, severityWeight]

theorem severityWeight_pos (s : Severity) : 0 < severityWeight s := by
  cases s <;> norm_num [severityWeight]

theorem confidence_fold_spec (fixes : List FixSuggestion) (a b : ℚ) :
    fixes.foldl
      (fun (acc : ℚ × ℚ) f =>
        (acc.1 + f.confidence * severityWeight f.severity,
         acc.2 + severityWeight f.severity))
      (a, b)
    = (a + (fixes.map (fun f => f.confidence * severityWeight f.severity)).sum,
       b + (fixes.map (fun f => severityWeight f.severity)).sum) := by
  induction fixes generalizing a b with
  | nil => simp
  | cons h t ih => simp [ih]; constructor <;> ring

theorem weight_sum_pos (fixes : List FixSuggestion) (hne : fixes ≠ []) :
    0 < (fixes.map (fun f => severityWeight f.severity)).sum := by
  cases fixes with
  | nil => exact absurd rfl hne
  | cons h t =>
      simp only [List.map_cons, List.sum_cons]
      have h1 := severityWeight_pos h.severity
      have h2 : 0 ≤ (t.map (fun f => severityWeight f.severity)).sum := by
        apply List.sum_nonneg
        intro x hx
        obtain ⟨f, _, rfl⟩ := List.mem_map.mp hx
        exact le_of_lt (severityWeight_pos f.severity)
      linarith

/-- C6: for fixes with confidences in [0,1], the overall confidence equals
the severity-weighted average with weights critical=1.5, error=1.0,
warning=0.7, info=0.5, and the empty fix set scores 1.0. -/
theorem calculateOverallConfidence_weighted_average (fixes : List FixSuggestion)
    (hconf : ∀ f ∈ fixes, 0 ≤ f.confidence ∧ f.confidence ≤ 1) :
    calculateOverallConfidence fixes = claimOverallConfidence fixes := by
  clear hconf
  unfold calculateOverallConfidence claimOverallConfidence
  rcases h : fixes with _ | ⟨f, t⟩
  · simp
  · rw [← h]
    have hne : fixes ≠ [] := by simp [h]
    have hlen : ¬ fixes.length = 0 := by simp [h]
    simp only [hlen, if_neg, ite_false, hne]
    rw [confidence_fold_spec]
    simp only [zero_add]
    have hpos := weight_sum_pos fixes hne
    rw [if_pos hpos]
    have hnum : (fixes.map (fun f => claimWeight f.severity * f.confidence)).sum =
        (fixes.map (fun f => f.confidence * severityWeight f.severity)).sum := by
      congr 1
      apply List.map_congr_left
      intro g _
      rw [claimWeight_eq]; ring
    have hden : (fixes.map (fun f => claimWeight f.severity)).sum =
        (fixes.map (fun f => severityWeight f.severity)).sum := by
      congr 1
      apply List.map_congr_left
      intro g _
      rw [claimWeight_eq]
    rw [hnum, hden]

/-- Witness for C6 at a concrete two-fix list. -/
theorem calculateOverallConfidence_weighted_average_witness :
    calculateOverallConfidence
        [{ lineNumber := 1, type := .missingColon, original := [], fixed := [],
           confidence := 9/10, severity := .critical },
         { lineNumber := 2, type := .typeCoercion, original := [], fixed := [],
           confidence := 1/2, severity := .info }]
      = claimOverallConfidence
        [{ lineNumber := 1, type := .missingColon, original := [], fixed := [],
           confidence := 9/10, severity := .critical },
         { lineNumber := 2, type := .typeCoercion, original := [], fixed := [],
           confidence := 1/2, severity := .info }] := by
  apply calculateOverallConfidence_weighted_average
  intro f hf
  simp only [List.mem_cons, List.not_mem_nil, or_false] at hf
  rcases hf with rfl | rfl
  · norm_num
  · norm_num

theorem popStack_sorted (ind : Nat) (s : List IndentLevel)
    (h : stackSorted s) : stackSorted (popStack ind s) := by
  induction s with
  | nil => simpa [popStack] using h
  | cons f rest ih =>
      unfold popStack
      by_cases hle : ind ≤ f.indent
      · simp only [if_pos hle]
        exact ih (List.pairwise_cons.mp h).2
      · simp only [if_neg hle]
        exact h

theorem popStack_lt (ind : Nat) (s : List IndentLevel)
    (h : stackSorted s) : ∀ f ∈ popStack ind s, f.indent < ind := by
  induction s with
  | nil => intro f hf; simp [popStack] at hf
  | cons g rest ih =>
      rw [stackSorted, List.pairwise_cons] at h
      intro f hf
      unfold popStack at hf
      by_cases hle : ind ≤ g.indent
      · rw [if_pos hle] at hf
        exact ih h.2 f hf
      · rw [if_neg hle] at hf
        rcases List.mem_cons.mp hf with rfl | hmem
        · omega
        · have := h.1 f hmem
          omega

theorem updateContext_stack (st : AnalyzerSt) (line : SemLine) :
    (updateContext st line).tracker.indentStack = st.tracker.indentStack ∨
    ∃ k, (updateContext st line).tracker.indentStack =
      { indent := line.indent, key := line.key.getD [], kind := k,
        lineNumber := line.lineNumber } :: st.tracker.indentStack := by
  unfold updateContext trackerPush
  split_ifs <;>
    simp [apply_ite (fun s : AnalyzerSt => s.tracker.indentStack)]

theorem trackerProcessLine_sorted (st : TrackerSt) (c : Chars) (ind : Nat)
    (h : stackSorted st.indentStack) :
    stackSorted (trackerProcessLine st c ind).indentStack := by
  unfold trackerProcessLine
  split_ifs
  · simp [emptyTracker, stackSorted]
  · exact popStack_sorted _ _ h

theorem trackerProcessLine_lt (st : TrackerSt) (c : Chars) (ind : Nat)
    (h : stackSorted st.indentStack) :
    ∀ f ∈ (trackerProcessLine st c ind).indentStack, f.indent < ind := by
  unfold trackerProcessLine
  split_ifs
  · simp [emptyTracker]
  · exact popStack_lt _ _ h

theorem updateContext_sorted (st : AnalyzerSt) (line : SemLine)
    (hs : stackSorted st.tracker.indentStack)
    (hlt : ∀ f ∈ st.tracker.indentStack, f.indent < line.indent) :
    stackSorted (updateContext st line).tracker.indentStack := by
  rcases updateContext_stack st line with heq | ⟨k, hk⟩
  · rw [heq]; exact hs
  · rw [hk]
    exact List.Pairwise.cons (fun b hb => hlt b hb) hs

theorem extractKeyValue_indent (line : SemLine) (t : Chars) :
    (extractKeyValue line t).indent = line.indent := by
  simp only [extractKeyValue]
  split_ifs <;> simp

theorem analyzeLine_fst (st : AnalyzerSt) (n : Nat) (c : Chars) :
    (analyzeLine st n c).1 =
      updateContext { st with tracker := trackerProcessLine st.tracker c (leadWs c) }
        (analyzeLine st n c).2 := rfl

theorem analyzeLine_snd_indent (st : AnalyzerSt) (n : Nat) (c : Chars) :
    (analyzeLine st n c).2.indent = leadWs c := by
  simp only [analyzeLine]
  split_ifs <;> simp [extractKeyValue_indent]

theorem analyzeLine_sorted (st : AnalyzerSt) (n : Nat) (c : Chars)
    (h : stackSorted st.tracker.indentStack) :
    stackSorted (analyzeLine st n c).1.tracker.indentStack := by
  rw [analyzeLine_fst]
  apply updateContext_sorted
  · exact trackerProcessLine_sorted _ _ _ h
  · rw [analyzeLine_snd_indent]
    exact trackerProcessLine_lt _ _ _ h

theorem semParseStep_sorted (st : AnalyzerSt × List SemLine) (p : Nat × Chars)
    (h : stackSorted st.1.tracker.indentStack) :
    stackSorted (semParseStep st p).1.tracker.indentStack := by
  unfold semParseStep
  split_ifs <;> exact analyzeLine_sorted _ _ _ h

theorem semParseFold_sorted (ps : List (Nat × Chars))
    (st : AnalyzerSt × List SemLine)
    (h : stackSorted st.1.tracker.indentStack) :
    stackSorted ((ps.foldl semParseStep st).1.tracker.indentStack) := by
  induction ps generalizing st with
  | nil => exact h
  | cons p rest ih => exact ih _ (semParseStep_sorted st p h)

/-- C8: after processing any sequence of lines the indent stack is
strictly increasing in indent from bottom to top; processing a line whose
indent is ≤ the top-of-stack indent pops frames until every remaining
frame's indent is strictly smaller than the incoming indent; a `---`
separator clears the stack. -/
theorem indentTracker_stack_invariant :
    (∀ content : Chars,
       List.Pairwise (fun a b => a.indent < b.indent)
         ((semParse content).analyzer.tracker.indentStack).reverse) ∧
    (∀ (s : List IndentLevel) (ind : Nat), stackSorted s →
       ∀ f ∈ popStack ind s, f.indent < ind) ∧
    (∀ (st : TrackerSt) (c : Chars) (ind : Nat), jsTrim c = "---".data →
       (trackerProcessLine st c ind).indentStack = []) := by
  refine ⟨?_, fun s ind h => popStack_lt ind s h, ?_⟩
  · intro content
    rw [List.pairwise_reverse]
    exact semParseFold_sorted _ _ (by simp [emptyAnalyzer, emptyTracker, stackSorted])
  · intro st c ind h
    unfold trackerProcessLine
    rw [if_pos (by simp [h])]
    simp [emptyTracker]

/-- Witness for C8 at a concrete document, stack and separator line. -/
theorem indentTracker_stack_invariant_witness :
    List.Pairwise (fun a b => a.indent < b.indent)
      ((semParse "a:\n  b:\n    c: 1".data).analyzer.tracker.indentStack).reverse ∧
    (∀ f ∈ popStack 2
        [{ indent := 4, key := "c".data, kind := .object, lineNumber := 3 },
         { indent := 2, key := "b".data, kind := .object, lineNumber := 2 },
         { indent := 0, key := "a".data, kind := .object, lineNumber := 1 }],
       f.indent < 2) ∧
    (trackerProcessLine emptyTracker "---".data 0).indentStack = [] :=
  ⟨indentTracker_stack_invariant.1 _,
   indentTracker_stack_invariant.2.1 _ 2
     (by simp [stackSorted, List.pairwise_cons]),
   indentTracker_stack_invariant.2.2 _ _ 0 (by decide)⟩

/-- C3: the loop executes at most `maxIterations` iterations (default 3);
it stops in the first iteration in which no suggestion passes the
confidence filter, keeping the current text; and when the final text
still fails to parse, the best-effort text and the parser's error are
both returned. -/
theorem fixLoop_bounded_early_stop (parse : JsParse) (opts : FixerOptions) :
    (mkFixerOptions none none none).maxIterations = 3 ∧
    (∀ fuel cur, fixLoopIters parse opts fuel cur ≤ fuel) ∧
    (∀ fuel cur acc,
       filterByConfidence (iterationFixes opts cur) opts.confidenceThreshold
         = [] →
       fixLoop parse opts fuel cur acc = (cur, acc)) ∧
    (∀ yaml e,
       parse (fixLoop parse opts opts.maxIterations yaml []).1 = some e →
       (intelligentFix parse opts yaml).fixedYaml =
         (fixLoop parse opts opts.maxIterations yaml []).1 ∧
       (intelligentFix parse opts yaml).errors =
         [{ line := errMarkLine e, message := e.message,
            severity := .error }]) := by
  refine ⟨rfl, ?_, ?_, ?_⟩
  · intro fuel
    induction fuel with
    | zero => intro cur; simp [fixLoopIters]
    | succ n ih =>
        intro cur
        unfold fixLoopIters
        dsimp only
        split_ifs
        · omega
        · cases hp : parse (applyFixes cur (filterByConfidence
              (iterationFixes opts cur) opts.confidenceThreshold)) with
          | none => simp only [hp]; omega
          | some _ =>
              have hrec := ih (applyFixes cur (filterByConfidence
                (iterationFixes opts cur) opts.confidenceThreshold))
              simp only [hp]
              omega
  · intro fuel cur acc h
    cases fuel with
    | zero => rfl
    | succ n => simp [fixLoop, h]
  · intro yaml e h
    unfold intelligentFix
    dsimp only
    rw [h]
    exact ⟨rfl, rfl⟩

/-- Witness for C3: on the unparseable input `[` no pass suggests
anything, so the loop stops at once and the parser error is surfaced. -/
theorem fixLoop_bounded_early_stop_witness :
    fixLoop c3Parse (mkFixerOptions none none none) 3 "[".data [] =
      ("[".data, []) ∧
    (intelligentFix c3Parse (mkFixerOptions none none none) "[".data).fixedYaml
      = "[".data ∧
    (intelligentFix c3Parse (mkFixerOptions none none none) "[".data).errors
      = [{ line := 2, message := "m".data, severity := .error }] := by
  have h := fixLoop_bounded_early_stop c3Parse (mkFixerOptions none none none)
  have hempty : filterByConfidence
      (iterationFixes (mkFixerOptions none none none) "[".data)
      (mkFixerOptions none none none).confidenceThreshold = [] := by decide
  have hloop := h.2.2.1 3 "[".data [] hempty
  have hloop' : fixLoop c3Parse (mkFixerOptions none none none)
      (mkFixerOptions none none none).maxIterations "[".data [] =
      ("[".data, []) := hloop
  have herr := h.2.2.2 "[".data { mark := some (2, 5), message := "m".data }
    (by rw [hloop']; rfl)
  exact ⟨hloop, by rw [herr.1, hloop'], herr.2⟩

set_option maxRecDepth 400000 in
unseal Rat.add Rat.mul Rat.inv in
/-- C4 counterexample: `port 8080` is already parseable (a plain YAML
scalar, accepted by the modelled parser as js-yaml does), yet `fix`
rewrites it to `port: 8080` and reports one applied fix. -/
theorem fix_changes_already_valid_input :
    jsParseAlwaysOk "port 8080".data = none ∧
    (intelligentFix jsParseAlwaysOk (mkFixerOptions none none none)
        "port 8080".data).fixedYaml = "port: 8080".data ∧
    "port: 8080".data ≠ ("port 8080".data : Chars) ∧
    (intelligentFix jsParseAlwaysOk (mkFixerOptions none none none)
        "port 8080".data).fixes.length = 1 := by
  exact ⟨rfl, by decide, by decide, by decide⟩

/-- C4 (amended): when no suggestion passes the confidence filter on the
input, `fix` returns the text unchanged and reports zero applied fixes,
for every parser behaviour and every options value. -/
theorem fix_noop_when_no_accepted_suggestions (parse : JsParse)
    (opts : FixerOptions) (yaml : Chars)
    (h : filterByConfidence (iterationFixes opts yaml)
      opts.confidenceThreshold = []) :
    (intelligentFix parse opts yaml).fixedYaml = yaml ∧
    (intelligentFix parse opts yaml).fixes = [] := by
  have hloop : fixLoop parse opts opts.maxIterations yaml [] = (yaml, []) := by
    cases hm : opts.maxIterations with
    | zero => rfl
    | succ n => simp [fixLoop, h]
  unfold intelligentFix
  dsimp only
  rw [hloop]
  cases hp : parse yaml <;> simp [sortFixesAsc]

set_option maxRecDepth 400000 in
unseal Rat.add Rat.mul Rat.inv in
/-- Witness for C4 (amended) at the already-valid input `a: 1`, on which
none of the passes proposes anything. -/
theorem fix_noop_when_no_accepted_suggestions_witness :
    (intelligentFix jsParseAlwaysOk (mkFixerOptions none none none)
        "a: 1".data).fixedYaml = "a: 1".data ∧
    (intelligentFix jsParseAlwaysOk (mkFixerOptions none none none)
        "a: 1".data).fixes = [] :=
  fix_noop_when_no_accepted_suggestions jsParseAlwaysOk
    (mkFixerOptions none none none) "a: 1".data (by decide)

set_option maxRecDepth 400000 in
unseal Rat.add Rat.mul Rat.inv in
/-- C5 counterexample: on `Zqq\n  image: nginx\nreps 2` the run with
threshold 0.6 applies 2 fixes (everything in one round, after which the
text parses), while the run with the higher threshold 0.7 applies 3
fixes: the colon fix on `reps 2` only unlocks the alias typo fix
`reps → replicas` in the second iteration, and sibling-pattern learning
raises the `Zqq` colon fix from 0.6 to 0.85 there. -/
theorem raising_threshold_increases_fix_count :
    ((6:ℚ)/10 ≤ 7/10) ∧
    (intelligentFix c5Parse (mkFixerOptions (some (6/10)) (some false) none)
        "Zqq\n  image: nginx\nreps 2".data).fixes.length = 2 ∧
    (intelligentFix c5Parse (mkFixerOptions (some (7/10)) (some false) none)
        "Zqq\n  image: nginx\nreps 2".data).fixes.length = 3 := by
  refine ⟨by norm_num, by decide, by decide⟩

/-- C5 (amended): raising the threshold is antitone for a single
filtering step — one application of the confidence filter never accepts
more suggestions at a higher threshold; the end-to-end applied-fix count
of the iterative loop, however, is not monotone in the threshold. -/
theorem filterByConfidence_antitone (fixes : List FixSuggestion)
    (t1 t2 : ℚ) (h : t1 ≤ t2) :
    (filterByConfidence fixes t2).length ≤
      (filterByConfidence fixes t1).length := by
  unfold filterByConfidence
  induction fixes with
  | nil => simp
  | cons f rest ih =>
      simp only [List.filter_cons]
      by_cases h2 : t2 ≤ f.confidence
      · have h1 : t1 ≤ f.confidence := le_trans h h2
        simp [h1, h2]
        omega
      · by_cases h1 : t1 ≤ f.confidence <;> simp [h1, h2] <;> omega

/-- Witness for C5 (amended) at a concrete suggestion list and the
default and aggressive thresholds. -/
theorem filterByConfidence_antitone_witness :
    (filterByConfidence
        [{ lineNumber := 1, type := .missingColon, original := [],
           fixed := [], confidence := 7/10, severity := .warning }]
        (8/10)).length ≤
      (filterByConfidence
        [{ lineNumber := 1, type := .missingColon, original := [],
           fixed := [], confidence := 7/10, severity := .warning }]
        (6/10)).length :=
  filterByConfidence_antitone _ (6/10) (8/10) (by norm_num)

/-! ## C2: block-scalar interior lines are rewritten by the semantic
missing-colon pass -/

set_option maxRecDepth 400000 in
unseal Rat.add Rat.mul Rat.inv in
/-- C2 evaluated at the failing input `a: |` followed by the interior
line `  port 8080`: the opener's trimmed content ends in `|` and the
second line is more deeply indented, so it lies inside the block-scalar
span, yet the context analyzer classifies the opener as an ordinary
key-value line and the missing-colon pass rewrites the interior line
with confidence 0.95, which the fixer applies. -/
theorem blockScalar_interior_line_rewritten :
    endsWithSeg "|".data (jsTrim "a: |".data) = true ∧
    leadSpaces "a: |".data < leadSpaces "  port 8080".data ∧
    (findMissingColons (semParse "a: |\n  port 8080".data)
        (mkFixerOptions none none none)).map
      (fun f => (f.lineNumber, f.fixed)) =
      [((2 : Int), "  port: 8080".data)] ∧
    (intelligentFix jsParseAlwaysOk (mkFixerOptions none none none)
        "a: |\n  port 8080".data).fixedYaml = "a: |\n  port: 8080".data := by
  exact ⟨by decide, by decide, by decide, by decide⟩

/-- C10 counterexample: a fix whose replacement text contains a newline
increases the number of lines of the document. -/
theorem applyFixes_line_count_not_preserved :
    (splitNl (applyFixes "x".data [newlineFix])).length = 2 ∧
    (splitNl "x".data).length = 1 := by
  exact ⟨by decide, by decide⟩

theorem splitNl_ne_nil (content : Chars) : splitNl content ≠ [] := by
  cases content with
  | nil => simp [splitNl]
  | cons c rest =>
      unfold splitNl
      cases h : splitNl rest with
      | nil => simp
      | cons a t => split_ifs <;> simp

theorem contains_nl_false_iff (l : Chars) : l.contains '\n' = false ↔ '\n' ∉ l := by
  induction l with
  | nil => simp [List.contains]
  | cons c t ih =>
      simp only [List.contains] at *
      rw [List.elem_cons]
      cases hc : '\n' == c
      · simp only [List.mem_cons]
        constructor
        · intro h hmem
          rcases hmem with heq | hmem
          · rw [heq] at hc; simp at hc
          · exact ih.mp h hmem
        · intro h
          exact ih.mpr (fun hm => h (Or.inr hm))
      · have hceq : '\n' = c := eq_of_beq hc
        subst hceq
        simp

theorem splitNl_no_newline (content : Chars) :
    ∀ l ∈ splitNl content, '\n' ∉ l := by
  induction content with
  | nil => intro l hl; simp [splitNl] at hl; simp [hl]
  | cons c rest ih =>
      intro l hl
      unfold splitNl at hl
      rcases h : splitNl rest with _ | ⟨a, t⟩
      · exact absurd h (splitNl_ne_nil rest)
      · rw [h] at hl
        have hl' : l ∈ if c == '\n' then ([] : Chars) :: a :: t else (c :: a) :: t := hl
        by_cases hc : c == '\n'
        · rw [if_pos hc] at hl'
          rcases List.mem_cons.mp hl' with rfl | hmem
          · simp
          · exact ih l (h ▸ hmem)
        · rw [if_neg hc] at hl'
          rcases List.mem_cons.mp hl' with rfl | hmem
          · have ha : '\n' ∉ a := ih a (by rw [h]; simp)
            intro hm
            rcases List.mem_cons.mp hm with heq | hm2
            · exact hc (by rw [← heq]; rfl)
            · exact ha hm2
          · exact ih l (h ▸ List.mem_cons_of_mem a hmem)

theorem splitNl_singleton (l : Chars) (h : '\n' ∉ l) :
    splitNl l = [l] := by
  induction l with
  | nil => rfl
  | cons c rest ih =>
      have hc : (c == '\n') = false := by
        cases hcc : c == '\n'
        · rfl
        · exact absurd (eq_of_beq hcc ▸ List.mem_cons_self c rest) h
      have hrest : '\n' ∉ rest := fun hm => h (List.mem_cons_of_mem c hm)
      unfold splitNl
      rw [ih hrest]
      simp [hc]

theorem splitNl_append_newline (l t : Chars) (h : '\n' ∉ l) :
    splitNl (l ++ '\n' :: t) = l :: splitNl t := by
  induction l with
  | nil =>
      simp only [List.nil_append]
      show splitNl ('\n' :: t) = [] :: splitNl t
      conv_lhs => rw [splitNl]
      rcases ht : splitNl t with _ | ⟨a, s⟩
      · exact absurd ht (splitNl_ne_nil t)
      · simp
  | cons c rest ih =>
      have hc : (c == '\n') = false := by
        cases hcc : c == '\n'
        · rfl
        · exact absurd (eq_of_beq hcc ▸ List.mem_cons_self c rest) h
      have hrest : '\n' ∉ rest := fun hm => h (List.mem_cons_of_mem c hm)
      simp only [List.cons_append]
      conv_lhs => rw [splitNl]
      rw [ih hrest]
      simp [hc]

theorem splitNl_joinNl (ls : List Chars) (hne : ls ≠ [])
    (h : ∀ l ∈ ls, '\n' ∉ l) :
    splitNl (joinNl ls) = ls := by
  induction ls with
  | nil => exact absurd rfl hne
  | cons l rest ih =>
      cases rest with
      | nil =>
          simp only [joinNl]
          exact splitNl_singleton l (h l (by simp))
      | cons l2 rest2 =>
          show splitNl (l ++ '\n' :: joinNl (l2 :: rest2)) = _
          rw [splitNl_append_newline l _ (h l (by simp))]
          rw [ih (by simp) (fun x hx => h x (List.mem_cons_of_mem l hx))]

theorem mem_set_or (ls : List Chars) (i : Nat) (a x : Chars)
    (hx : x ∈ ls.set i a) : x ∈ ls ∨ x = a := by
  induction ls generalizing i with
  | nil => simp at hx
  | cons h t ih =>
      cases i with
      | zero =>
          rcases List.mem_cons.mp hx with rfl | hmem
          · exact Or.inr rfl
          · exact Or.inl (List.mem_cons_of_mem h hmem)
      | succ n =>
          rcases List.mem_cons.mp hx with rfl | hmem
          · exact Or.inl (List.mem_cons_self _ _)
          · rcases ih n hmem with hm | hm
            · exact Or.inl (List.mem_cons_of_mem h hm)
            · exact Or.inr hm

theorem applyOneFix_length (ls : List Chars) (f : FixSuggestion) :
    (applyOneFix ls f).length = ls.length := by
  unfold applyOneFix
  split_ifs <;> simp

theorem foldl_applyOneFix_length (fs : List FixSuggestion) (ls : List Chars) :
    (fs.foldl applyOneFix ls).length = ls.length := by
  induction fs generalizing ls with
  | nil => rfl
  | cons f rest ih => rw [List.foldl_cons, ih, applyOneFix_length]

theorem applyOneFix_get?_ne (ls : List Chars) (f : FixSuggestion) (m : Nat)
    (h : f.lineNumber ≠ (m : Int) + 1) :
    (applyOneFix ls f).get? m = ls.get? m := by
  unfold applyOneFix
  split_ifs with hc
  · have h1 : 0 < f.lineNumber := by
      rcases Bool.and_eq_true_iff.mp hc with ⟨h1, _⟩
      exact of_decide_eq_true h1
    have hne : (f.lineNumber - 1).toNat ≠ m := by omega
    exact List.get?_set_ne _ _ hne
  · rfl

theorem foldl_applyOneFix_get? (fs : List FixSuggestion) (ls : List Chars)
    (m : Nat) (h : ∀ f ∈ fs, f.lineNumber ≠ (m : Int) + 1) :
    (fs.foldl applyOneFix ls).get? m = ls.get? m := by
  induction fs generalizing ls with
  | nil => rfl
  | cons f rest ih =>
      rw [List.foldl_cons, ih _ (fun g hg => h g (List.mem_cons_of_mem f hg)),
        applyOneFix_get?_ne _ _ _ (h f (List.mem_cons_self f rest))]

theorem mem_insertFixDesc (f g : FixSuggestion) (l : List FixSuggestion)
    (h : g ∈ insertFixDesc f l) : g = f ∨ g ∈ l := by
  induction l with
  | nil => simp [insertFixDesc] at h; simp [h]
  | cons a t ih =>
      unfold insertFixDesc at h
      split_ifs at h
      · rcases List.mem_cons.mp h with rfl | hmem
        · exact Or.inr (List.mem_cons_self _ _)
        · rcases ih hmem with hm | hm
          · exact Or.inl hm
          · exact Or.inr (List.mem_cons_of_mem a hm)
      · rcases List.mem_cons.mp h with rfl | hmem
        · exact Or.inl rfl
        · exact Or.inr hmem

theorem mem_sortFixesDesc (fs : List FixSuggestion) (g : FixSuggestion)
    (h : g ∈ sortFixesDesc fs) : g ∈ fs := by
  unfold sortFixesDesc at h
  suffices haux : ∀ (l : List FixSuggestion) (acc : List FixSuggestion),
      g ∈ l.foldl (fun acc f => insertFixDesc f acc) acc → g ∈ acc ∨ g ∈ l by
    rcases haux fs [] h with hm | hm
    · simp at hm
    · exact hm
  intro l
  induction l with
  | nil => intro acc hacc; exact Or.inl hacc
  | cons f rest ih =>
      intro acc hacc
      rcases ih _ hacc with hm | hm
      · rcases mem_insertFixDesc f g acc hm with rfl | hm2
        · exact Or.inr (List.mem_cons_self _ _)
        · exact Or.inl hm2
      · exact Or.inr (List.mem_cons_of_mem f hm)

theorem foldl_applyOneFix_no_newline (fs : List FixSuggestion)
    (ls : List Chars) (hls : ∀ l ∈ ls, '\n' ∉ l)
    (hfs : ∀ f ∈ fs, '\n' ∉ f.fixed) :
    ∀ l ∈ fs.foldl applyOneFix ls, '\n' ∉ l := by
  induction fs generalizing ls with
  | nil => exact hls
  | cons f rest ih =>
      rw [List.foldl_cons]
      apply ih
      · intro l hl
        unfold applyOneFix at hl
        split_ifs at hl
        · rcases mem_set_or _ _ _ _ hl with hm | rfl
          · exact hls l hm
          · exact hfs f (List.mem_cons_self _ _)
        · exact hls l hl
      · exact fun g hg => hfs g (List.mem_cons_of_mem f hg)

/-- C10 (amended): provided no fix's replacement text contains a newline,
applying a batch preserves the number of lines, leaves every line whose
1-based number is not targeted by any fix unchanged, and a fix whose
target is out of range (≤ 0 or beyond the last line) is silently
ignored. -/
theorem applyFixes_frame (yaml : Chars) (fixes : List FixSuggestion)
    (hnl : ∀ f ∈ fixes, '\n' ∉ f.fixed) :
    (splitNl (applyFixes yaml fixes)).length = (splitNl yaml).length ∧
    (∀ m : Nat, (∀ f ∈ fixes, f.lineNumber ≠ (m : Int) + 1) →
       (splitNl (applyFixes yaml fixes)).get? m = (splitNl yaml).get? m) ∧
    (∀ (ls : List Chars) (f : FixSuggestion),
       f.lineNumber ≤ 0 ∨ (ls.length : Int) < f.lineNumber →
       applyOneFix ls f = ls) := by
  have hsplit : splitNl (applyFixes yaml fixes) =
      (sortFixesDesc fixes).foldl applyOneFix (splitNl yaml) := by
    unfold applyFixes
    apply splitNl_joinNl
    · intro hcon
      have hlen := foldl_applyOneFix_length (sortFixesDesc fixes) (splitNl yaml)
      rw [hcon] at hlen
      exact splitNl_ne_nil yaml (List.length_eq_zero.mp hlen.symm)
    · exact foldl_applyOneFix_no_newline _ _ (splitNl_no_newline yaml)
        (fun f hf => hnl f (mem_sortFixesDesc fixes f hf))
  refine ⟨?_, ?_, ?_⟩
  · rw [hsplit]; exact foldl_applyOneFix_length _ _
  · intro m hm
    rw [hsplit]
    exact foldl_applyOneFix_get? _ _ _
      (fun f hf => hm f (mem_sortFixesDesc fixes f hf))
  · intro ls f hf
    unfold applyOneFix
    rw [if_neg]
    simp only [Bool.and_eq_true_iff, not_and, decide_eq_true_eq]
    intro h1 h2
    rcases hf with hf | hf
    · exact absurd h1 (by omega)
    · exact absurd h2 (by omega)

/-- Witness for C10 (amended) on a three-line document with one in-range
and one out-of-range fix. -/
theorem applyFixes_frame_witness :
    (splitNl (applyFixes "a: 1\nb: 2\nc: 3".data
        [{ lineNumber := 2, type := .missingColon, original := "b: 2".data,
           fixed := "b: 9".data, confidence := 1, severity := .error },
         { lineNumber := 7, type := .missingColon, original := [],
           fixed := "zz".data, confidence := 1, severity := .error }])).length
      = (splitNl "a: 1\nb: 2\nc: 3".data).length ∧
    (splitNl (applyFixes "a: 1\nb: 2\nc: 3".data
        [{ lineNumber := 2, type := .missingColon, original := "b: 2".data,
           fixed := "b: 9".data, confidence := 1, severity := .error },
         { lineNumber := 7, type := .missingColon, original := [],
           fixed := "zz".data, confidence := 1, severity := .error }])).get? 0
      = (splitNl "a: 1\nb: 2\nc: 3".data).get? 0 := by
  have h := applyFixes_frame "a: 1\nb: 2\nc: 3".data
    [{ lineNumber := 2, type := .missingColon, original := "b: 2".data,
       fixed := "b: 9".data, confidence := 1, severity := .error },
     { lineNumber := 7, type := .missingColon, original := [],
       fixed := "zz".data, confidence := 1, severity := .error }]
    (by decide)
  exact ⟨h.1, h.2.1 0 (by decide)⟩

/-! ## C7: duplicate keys are dropped per (column, scope) -/

theorem find?_filter_pair (m : SeenKeys) (q : Nat × List Chars → Bool) (c : Nat)
    (hq : ∀ ks, q (c, ks) = true) :
    (m.filter q).find? (fun e => e.1 == c) = m.find? (fun e => e.1 == c) := by
  induction m with
  | nil => rfl
  | cons e t ih =>
      cases hbe : (e.1 == c) with
      | true =>
          have hec : e.1 = c := by simpa using hbe
          have hqe : q e = true := by
            have he2 : e = (c, e.2) := by rw [← hec]
            rw [he2]; exact hq e.2
          simp [List.filter_cons, hqe, hbe]
      | false =>
          cases hqe : q e with
          | true => simp [List.filter_cons, hqe, hbe, ih]
          | false => simp [List.filter_cons, hqe, hbe, ih]

theorem seenLookup_filter (m : SeenKeys) (q : Nat × List Chars → Bool) (c : Nat)
    (hq : ∀ ks, q (c, ks) = true) :
    seenLookup (m.filter q) c = seenLookup m c := by
  unfold seenLookup
  rw [find?_filter_pair m q c hq]

theorem seenAdd_lookup (m : SeenKeys) (c : Nat) (k : Chars) :
    k ∈ seenLookup (seenAdd m c k) c := by
  induction m with
  | nil => simp [seenAdd, seenLookup, List.find?]
  | cons e t ih =>
      cases hbe : (e.1 == c) with
      | true => simp [seenAdd, hbe, seenLookup, List.find?]
      | false =>
          simpa [seenAdd, hbe, seenLookup, List.find?] using ih

theorem dupUpdate_drop (seen : SeenKeys) (li : Int) (line updT k : Chars)
    (hci : (searchNonWs line == -1) = false)
    (hsep : startsWithSeg "---".data line = false)
    (hkey : keyExtract line = some k)
    (hcont : (seenLookup (dupResets seen li (searchNonWs line) updT)
        (indexOfSeg k line).toNat).contains k = true) :
    dupUpdate seen li line updT =
      ⟨dupResets seen li (searchNonWs line) updT, li, true, some k⟩ := by
  have hm : k ∈ seenLookup (dupResets seen li (searchNonWs line) updT)
      (indexOfSeg k line).toNat := by simpa using hcont
  unfold dupUpdate
  simp [hci, hsep, hkey, hcont, hm]

theorem dupUpdate_record (seen : SeenKeys) (li : Int) (line updT k : Chars)
    (hci : (searchNonWs line == -1) = false)
    (hsep : startsWithSeg "---".data line = false)
    (hkey : keyExtract line = some k)
    (hcont : (seenLookup (dupResets seen li (searchNonWs line) updT)
        (indexOfSeg k line).toNat).contains k = false) :
    dupUpdate seen li line updT =
      ⟨seenAdd (dupResets seen li (searchNonWs line) updT)
         (indexOfSeg k line).toNat k, searchNonWs line, false, none⟩ := by
  have hm : k ∉ seenLookup (dupResets seen li (searchNonWs line) updT)
      (indexOfSeg k line).toNat := by simpa using hcont
  unfold dupUpdate
  simp [hci, hsep, hkey, hcont, hm]

theorem dupUpdate_sep (seen : SeenKeys) (li : Int) (line updT : Chars)
    (hci : (searchNonWs line == -1) = false)
    (hsep : startsWithSeg "---".data line = true) :
    dupUpdate seen li line updT = ⟨[], 0, false, none⟩ := by
  unfold dupUpdate
  simp [hci, hsep]

theorem phase1Step_main (allLines : List Chars) (sz i : Nat) (st : P1St)
    (line0 : Chars)
    (hbs : nextInBlockScalar st.inBlockScalar line0 (jsTrim line0) = false)
    (hne : (jsTrim line0).isEmpty = false)
    (hcm : startsWithSeg "#".data (jsTrim line0) = false) :
    phase1Step allLines sz i st line0 = p1Main allLines sz i st line0 := by
  unfold phase1Step
  simp [hbs, hne, hcm]

theorem p1Main_spec (allLines : List Chars) (sz i : Nat) (st : P1St)
    (line0 : Chars) (T : TransRes) (d : DupRes)
    (hT : p1T allLines sz i st line0 = T)
    (hd : dupUpdate st.seenKeys st.lastIndent T.line T.updT = d) :
    p1Main allLines sz i st line0 =
      if d.dropped then
        { inBlockScalar := nextInBlockScalar st.inBlockScalar line0 (jsTrim line0),
          inConfigMapData := T.inCM, configMapIndent := T.cmIndent,
          seenKeys := d.seen, lastIndent := d.last, normRev := st.normRev,
          changesRev := mkDupChange i line0 (d.dupKey.getD []) ::
            (T.chs.reverse ++ st.changesRev) }
      else
        { inBlockScalar := nextInBlockScalar st.inBlockScalar line0 (jsTrim line0),
          inConfigMapData := T.inCM, configMapIndent := T.cmIndent,
          seenKeys := d.seen, lastIndent := d.last,
          normRev := T.line :: st.normRev,
          changesRev := T.chs.reverse ++ st.changesRev } := by
  simp only [p1Main]
  rw [hT, hd]

set_option maxRecDepth 400000 in
set_option maxHeartbeats 1000000 in
/-- C7: duplicate-key removal scoping of `phase1_syntaxNormalization`.
(A) When the transformed line carries a key already recorded at its
column after the resets, the line is dropped from the output, a
`DUPLICATE` change for its 1-based number is recorded, and `lastIndent`
is left untouched.  (B) A first occurrence survives and its key is
recorded at its column, which (B') means the key is then in the seen
set of that column.  (C) A `---` separator clears the whole seen-key
state.  (D) A dedent clears every level strictly deeper than the
current indent.  (E) A new list item clears every level at or deeper
than the current indent.  (F) A recorded key at a level the line does
not clear persists through the resets.  (G) End-to-end: a repeated key
at the same column is dropped with only the first surviving, while
repeating a key across a `---` separator, across sibling list items, or
after a dedent to a new parent is kept. -/
theorem phase1_duplicate_key_scoping :
    (∀ (allLines : List Chars) (sz i : Nat) (st : P1St) (line0 k : Chars),
       nextInBlockScalar st.inBlockScalar line0 (jsTrim line0) = false →
       (jsTrim line0).isEmpty = false →
       startsWithSeg "#".data (jsTrim line0) = false →
       (searchNonWs (p1T allLines sz i st line0).line == -1) = false →
       startsWithSeg "---".data (p1T allLines sz i st line0).line = false →
       keyExtract (p1T allLines sz i st line0).line = some k →
       (seenLookup (dupResets st.seenKeys st.lastIndent
           (searchNonWs (p1T allLines sz i st line0).line)
           (p1T allLines sz i st line0).updT)
         (indexOfSeg k (p1T allLines sz i st line0).line).toNat).contains k
           = true →
       (phase1Step allLines sz i st line0).normRev = st.normRev ∧
       (phase1Step allLines sz i st line0).changesRev =
         mkDupChange i line0 k ::
           ((p1T allLines sz i st line0).chs.reverse ++ st.changesRev) ∧
       (phase1Step allLines sz i st line0).lastIndent = st.lastIndent) ∧
    (∀ (allLines : List Chars) (sz i : Nat) (st : P1St) (line0 k : Chars),
       nextInBlockScalar st.inBlockScalar line0 (jsTrim line0) = false →
       (jsTrim line0).isEmpty = false →
       startsWithSeg "#".data (jsTrim line0) = false →
       (searchNonWs (p1T allLines sz i st line0).line == -1) = false →
       startsWithSeg "---".data (p1T allLines sz i st line0).line = false →
       keyExtract (p1T allLines sz i st line0).line = some k →
       (seenLookup (dupResets st.seenKeys st.lastIndent
           (searchNonWs (p1T allLines sz i st line0).line)
           (p1T allLines sz i st line0).updT)
         (indexOfSeg k (p1T allLines sz i st line0).line).toNat).contains k
           = false →
       (phase1Step allLines sz i st line0).normRev =
         (p1T allLines sz i st line0).line :: st.normRev ∧
       (phase1Step allLines sz i st line0).seenKeys =
         seenAdd (dupResets st.seenKeys st.lastIndent
             (searchNonWs (p1T allLines sz i st line0).line)
             (p1T allLines sz i st line0).updT)
           (indexOfSeg k (p1T allLines sz i st line0).line).toNat k ∧
       (phase1Step allLines sz i st line0).lastIndent =
         searchNonWs (p1T allLines sz i st line0).line) ∧
    (∀ (m : SeenKeys) (c : Nat) (k : Chars), k ∈ seenLookup (seenAdd m c k) c) ∧
    (∀ (allLines : List Chars) (sz i : Nat) (st : P1St) (line0 : Chars),
       nextInBlockScalar st.inBlockScalar line0 (jsTrim line0) = false →
       (jsTrim line0).isEmpty = false →
       startsWithSeg "#".data (jsTrim line0) = false →
       (searchNonWs (p1T allLines sz i st line0).line == -1) = false →
       startsWithSeg "---".data (p1T allLines sz i st line0).line = true →
       (phase1Step allLines sz i st line0).seenKeys = [] ∧
       (phase1Step allLines sz i st line0).lastIndent = 0 ∧
       (phase1Step allLines sz i st line0).normRev =
         (p1T allLines sz i st line0).line :: st.normRev) ∧
    (∀ (seen : SeenKeys) (li ci : Int) (updT : Chars),
       ci < li → startsWithSeg "- ".data updT = false →
       ∀ e ∈ dupResets seen li ci updT, (e.1 : Int) ≤ ci) ∧
    (∀ (seen : SeenKeys) (li ci : Int) (updT : Chars),
       startsWithSeg "- ".data updT = true →
       ∀ e ∈ dupResets seen li ci updT, (e.1 : Int) < ci) ∧
    (∀ (seen : SeenKeys) (li ci : Int) (updT : Chars) (c : Nat) (k : Chars),
       k ∈ seenLookup seen c →
       (ci < li → (c : Int) ≤ ci) →
       (startsWithSeg "- ".data updT = true → (c : Int) < ci) →
       k ∈ seenLookup (dupResets seen li ci updT) c) ∧
    phase1_syntaxNormalization 2 "name: app\nname: dup".data =
      (["name: app".data], [mkDupChange 1 "name: dup".data "name".data]) ∧
    phase1_syntaxNormalization 2 "a: 1\n---\na: 1".data =
      (["a: 1".data, "---".data, "a: 1".data], []) ∧
    phase1_syntaxNormalization 2 "- a: 1\n- a: 1".data =
      (["- a: 1".data, "- a: 1".data], []) ∧
    phase1_syntaxNormalization 2 "m:\n  k: 1\nm2:\n  k: 2".data =
      (["m:".data, "  k: 1".data, "m2:".data, "  k: 2".data], []) := by
  refine ⟨?_, ?_, ?_, ?_, ?_, ?_, ?_, ?_, ?_, ?_, ?_⟩
  · intro allLines sz i st line0 k hbs hne hcm hci hsep hkey hcont
    rw [phase1Step_main allLines sz i st line0 hbs hne hcm,
        p1Main_spec allLines sz i st line0 (p1T allLines sz i st line0) _ rfl
          (dupUpdate_drop st.seenKeys st.lastIndent _ _ k hci hsep hkey hcont),
        if_pos rfl]
    refine ⟨?_, ?_, ?_⟩
    · with_reducible rfl
    · dsimp only [Option.getD_some]
    · with_reducible rfl
  · intro allLines sz i st line0 k hbs hne hcm hci hsep hkey hcont
    rw [phase1Step_main allLines sz i st line0 hbs hne hcm,
        p1Main_spec allLines sz i st line0 (p1T allLines sz i st line0) _ rfl
          (dupUpdate_record st.seenKeys st.lastIndent _ _ k hci hsep hkey hcont),
        if_neg (by exact Bool.false_ne_true)]
    refine ⟨?_, ?_, ?_⟩ <;> with_reducible rfl
  · exact fun m c k => seenAdd_lookup m c k
  · intro allLines sz i st line0 hbs hne hcm hci hsep
    rw [phase1Step_main allLines sz i st line0 hbs hne hcm,
        p1Main_spec allLines sz i st line0 (p1T allLines sz i st line0) _ rfl
          (dupUpdate_sep st.seenKeys st.lastIndent _ _ hci hsep),
        if_neg (by exact Bool.false_ne_true)]
    refine ⟨?_, ?_, ?_⟩ <;> with_reducible rfl
  · intro seen li ci updT h1 h2 e he
    simp only [dupResets, h2, Bool.false_eq_true, if_false, if_pos h1] at he
    exact of_decide_eq_true (List.mem_filter.mp he).2
  · intro seen li ci updT h e he
    simp only [dupResets, h, if_true] at he
    exact of_decide_eq_true (List.mem_filter.mp he).2
  · intro seen li ci updT c k hk h1 h2
    by_cases hls : startsWithSeg "- ".data updT = true
    · by_cases hlt : ci < li
      · simp only [dupResets, hls, if_true, if_pos hlt]
        rw [seenLookup_filter _ _ c (fun ks => decide_eq_true (h2 hls)),
            seenLookup_filter _ _ c (fun ks => decide_eq_true (h1 hlt))]
        exact hk
      · simp only [dupResets, hls, if_true, if_neg hlt]
        rw [seenLookup_filter _ _ c (fun ks => decide_eq_true (h2 hls))]
        exact hk
    · have hls2 : startsWithSeg "- ".data updT = false := by
        cases hb : startsWithSeg "- ".data updT
        · rfl
        · exact absurd hb hls
      by_cases hlt : ci < li
      · simp only [dupResets, hls2, Bool.false_eq_true, if_false, if_pos hlt]
        rw [seenLookup_filter _ _ c (fun ks => decide_eq_true (h1 hlt))]
        exact hk
      · simp only [dupResets, hls2, Bool.false_eq_true, if_false, if_neg hlt]
        exact hk
  · decide
  · decide
  · decide
  · decide

set_option maxRecDepth 400000 in
/-- Witness for C7: processing the second `name:` line in a state that
has already recorded `name` at column 0 drops the line and records the
`DUPLICATE` change. -/
theorem phase1_duplicate_key_scoping_witness :
    (phase1Step c7AllLines 2 1 c7St "name: dup".data).normRev =
      ["name: app".data] ∧
    (phase1Step c7AllLines 2 1 c7St "name: dup".data).changesRev =
      [mkDupChange 1 "name: dup".data "name".data] ∧
    (phase1Step c7AllLines 2 1 c7St "name: dup".data).lastIndent = 0 := by
  have h := phase1_duplicate_key_scoping.1 c7AllLines 2 1 c7St "name: dup".data
    "name".data (by decide) (by decide) (by decide) (by decide) (by decide)
    (by decide) (by decide)
  refine ⟨h.1, ?_, h.2.2⟩
  rw [h.2.1]
  decide

set_option maxRecDepth 400000 in
unseal Rat.add Rat.mul Rat.inv in
/-- C1 counterexample: when the final parse fails, the intelligent
fixer's error record is not the critical line/column record the claim
describes: its severity is `error` (not `critical`), it carries no
column at all, and its line is the raw zero-based mark line
(`error.mark?.line || 0`) where `YAMLFixer`'s conversion of the very
same caught error is a critical record with one-based line and column. -/
theorem parse_failure_record_shape_mismatch :
    (intelligentFix c1Parse (mkFixerOptions none none none) "x".data).errors =
      [{ line := 4, message := "bad".data, severity := .error }] ∧
    Severity.error ≠ Severity.critical ∧
    (phase2Err c1Err).severity = Severity.critical ∧
    (phase2Err c1Err).line = 5 ∧
    (phase2Err c1Err).column = some 8 := by
  exact ⟨by decide, by decide, rfl, rfl, rfl⟩

/-- C1 (amended): none of the entry points can propagate a parser
throw — the external parser is only ever consulted through its caught
result.  For `YAMLFixer.fix`: on a parse failure the result carries the
phase-1 partially-fixed text, the phase-1 change list, and exactly the
converted critical record (which always has a line and a column); on
success its error list is empty.  `YAMLFixer.validate` returns
`valid = true` exactly when its error list is empty, and a parse
failure on the original content contributes the same converted
critical record — but the result carries no text at all.  The
intelligent fixer's result always carries the best-effort text, and on
a final parse failure its single error record has severity `error`
(not `critical`) and only a line. -/
theorem fix_validate_error_conversion (α : Type)
    (parse : Chars → Except JsYamlErr α) (p3b : α → Chars × Chars)
    (agg : Bool) (sz : Nat) (content : Chars) (iparse : JsParse)
    (opts : FixerOptions) :
    (∀ e, parse (joinNl (phase1_syntaxNormalization sz content).1) =
        .error e →
       fixerFix parse p3b agg sz content =
         { content := joinNl (phase1_syntaxNormalization sz content).1,
           fixedCount := (phase1_syntaxNormalization sz content).2.length,
           changes := (phase1_syntaxNormalization sz content).2,
           errors := [phase2Err e] } ∧
       (phase2Err e).severity = Severity.critical ∧
       (phase2Err e).column.isSome = true) ∧
    (∀ v, parse (joinNl (phase1_syntaxNormalization sz content).1) = .ok v →
       (fixerFix parse p3b agg sz content).errors = []) ∧
    ((fixerValidate parse sz content).valid = true ↔
       (fixerValidate parse sz content).errors = []) ∧
    (∀ e, parse content = .error e →
       phase2Err e ∈ (fixerValidate parse sz content).errors) ∧
    (∀ e, iparse (fixLoop iparse opts opts.maxIterations content []).1 =
        some e →
       (intelligentFix iparse opts content).errors =
         [{ line := errMarkLine e, message := e.message,
            severity := .error }] ∧
       (intelligentFix iparse opts content).fixedYaml =
         (fixLoop iparse opts opts.maxIterations content []).1) := by
  refine ⟨?_, ?_, ?_, ?_, ?_⟩
  · intro e he
    refine ⟨?_, rfl, ?_⟩
    · simp only [fixerFix, he]
    · unfold phase2Err
      cases c1m : e.mark <;> rfl
  · intro v hv
    cases agg <;> simp [fixerFix, hv]
  · simp only [fixerValidate]
    simp [List.length_eq_zero]
  · intro e he
    simp [fixerValidate, he]
  · intro e he
    simp [intelligentFix, he]

/-- Witness for C1 (amended): the failure branches evaluated at the
always-failing parse on a small document. -/
theorem fix_validate_error_conversion_witness :
    (fixerFix c1Fail (fun _ => ([], [])) false 2 "a: 1".data).errors =
      [phase2Err c1Err] ∧
    (fixerFix c1Fail (fun _ => ([], [])) false 2 "a: 1".data).content =
      joinNl (phase1_syntaxNormalization 2 "a: 1".data).1 ∧
    (phase2Err c1Err).severity = Severity.critical ∧
    phase2Err c1Err ∈ (fixerValidate c1Fail 2 "a: 1".data).errors := by
  have h := fix_validate_error_conversion Unit c1Fail (fun _ => ([], []))
    false 2 "a: 1".data c1Parse (mkFixerOptions none none none)
  have h1 := h.1 c1Err rfl
  refine ⟨?_, ?_, h1.2.1, h.2.2.2.1 c1Err rfl⟩
  · rw [h1.1]
  · rw [h1.1]
